import Mathlib

/-!
Verification of the price & promotion extraction engine of the
mastermarket-scraper repository (sources: `simple_local_to_prod.py`,
`apify_dunnes_scraper.py`, `apify_tesco_scraper.py`).

Strings are modelled as `List Char`.  Money (and, uniformly, every numeric
value the Python code keeps in a float) is modelled exactly in fixed point:
an integer number of 1/10000ths of a euro (`Money := ℤ`).  Every price the
source's regexes capture has the shape `\d+[.,]\d{2}` — an exact multiple of
0.01, i.e. of 100 units — and the only division the engine performs is the
Tesco pence conversion `/ 100`, which is exact in 1/10000 units; so this
fixed-point model reproduces the source arithmetic exactly (e.g. the source
literal `0.01` is the model constant `100`, `1000` is `10000000`).
The simple regex patterns used by the two pure
candidate extractors are implemented directly as character-list scanners.
The larger per-retailer promotion detectors are embedded over a "scan"
structure holding, field by field, the result of each `re.search` the Python
function performs, in source order; the detector bodies then mirror the
Python control flow exactly (including dict-truthiness of `0.0`, overriding
of earlier fields by later sections, and early returns).
-/

namespace MasterMarket

abbrev Str := List Char

/-- Exact fixed-point money/number type: integer count of 1/10000 €. -/
abbrev Money := ℤ

/-- a two-decimal literal `i.c` (e.g. `5.99` is `mny 5 99`) -/
def mny (i : ℕ) (c : ℕ) : Money := (i : ℤ) * 10000 + (c : ℤ) * 100

/-- an integer-valued amount (e.g. the float `25.0` is `mnyN 25`) -/
def mnyN (n : ℕ) : Money := (n : ℤ) * 10000

/-- `str.lower()` -/
def strLower (s : Str) : Str := s.map Char.toLower

/-- `needle in haystack` for Python strings. -/
def strContains (haystack needle : Str) : Bool :=
  match haystack with
  | [] => needle.isEmpty
  | _ :: t => needle.isPrefixOf haystack || strContains t needle

/-- `any(ind in t for ind in inds)` -/
def containsAny (t : Str) (inds : List Str) : Bool := inds.any (fun i => strContains t i)

/-- digit value of an ASCII digit -/
def digVal (c : Char) : ℕ := c.toNat - 48

/-- numeric value of a digit run -/
def digitsVal (ds : Str) : ℕ := ds.foldl (fun a c => 10 * a + digVal c) 0

/-- Python `\s` character class. -/
def isPySpace (c : Char) : Bool :=
  (c == ' ') || (c == '\t') || (c == '\n') || (c == '\x0d') || (c == '\x0b') || (c == '\x0c')

/--
Match the regex `\d+[.,]\d{2}` exactly at the start of `l`; on success return
the captured value (with `,` read as the decimal separator, as the Python code
does via `.replace(',', '.')`) and the remainder of the string after the match.
`\d+` is greedy and the separator must be a non-digit, so only the maximal
digit run can precede the separator, and `\d{2}` takes exactly two digits.
-/
def matchNum2 (l : Str) : Option (Money × Str) :=
  let ds := l.takeWhile Char.isDigit
  let rest := l.dropWhile Char.isDigit
  if ds.isEmpty then none
  else
    match rest with
    | sep :: d1 :: d2 :: rest2 =>
      if ((sep == '.') || (sep == ',')) && d1.isDigit && d2.isDigit then
        some (mny (digitsVal ds) (10 * digVal d1 + digVal d2), rest2)
      else none
    | _ => none

/--
`re.findall(SYM \s* (\d+[.,]\d{2}), l)` where `SYM` is a character class:
scan left to right, continuing after each non-overlapping match.
Fuel-indexed recursion (the scanned string strictly shrinks every step, so
`l.length` fuel always suffices).
-/
def scanSymNumAux (syms : List Char) : ℕ → Str → List Money
  | 0, _ => []
  | _, [] => []
  | fuel + 1, c :: rest =>
    if syms.contains c then
      match matchNum2 (rest.dropWhile isPySpace) with
      | some (v, rest2) => v :: scanSymNumAux syms fuel rest2
      | none => scanSymNumAux syms fuel rest
    else scanSymNumAux syms fuel rest

def scanSymNum (syms : List Char) (l : Str) : List Money :=
  scanSymNumAux syms l.length l

/-- `re.findall((\d+[.,]\d{2}) \s* SYM, l)` -/
def scanNumSymAux (syms : List Char) : ℕ → Str → List Money
  | 0, _ => []
  | _, [] => []
  | fuel + 1, c :: rest =>
    match matchNum2 (c :: rest) with
    | some (v, rest2) =>
      match rest2.dropWhile isPySpace with
      | c2 :: rest3 =>
        if syms.contains c2 then v :: scanNumSymAux syms fuel rest3
        else scanNumSymAux syms fuel rest
      | [] => scanNumSymAux syms fuel rest
    | none => scanNumSymAux syms fuel rest

def scanNumSym (syms : List Char) (l : Str) : List Money :=
  scanNumSymAux syms l.length l

/-- `re.findall((\d+[.,]\d{2}), l)` -/
def scanBareAux : ℕ → Str → List Money
  | 0, _ => []
  | _, [] => []
  | fuel + 1, c :: rest =>
    match matchNum2 (c :: rest) with
    | some (v, rest2) => v :: scanBareAux fuel rest2
    | none => scanBareAux fuel rest

def scanBare (l : Str) : List Money :=
  scanBareAux l.length l

/-- valid-range predicate `0.01 <= price <= 1000` -/
def inPriceRange (p : Money) : Bool := decide (mny 0 1 ≤ p ∧ p ≤ mnyN 1000)

/-!
## `extract_price_from_text` (simple_local_to_prod.py, lines 350-376)

Per-unit guard on the lowered text, then three patterns tried in order
(`€\s*(\d+[.,]\d{2})`, `(\d+[.,]\d{2})\s*€`, `(\d+[.,]\d{2})`), returning the
first match whose value is in `[0.01, 1000]`.
-/

def per_unit_indicators : List Str :=
  [("/kg").toList, ("/100g").toList, ("/ml").toList, ("/l").toList, ("/litre").toList,
   ("per kg").toList, ("per 100g").toList, ("per litre").toList, ("each").toList]

def extract_price_from_text_matches (text : Str) : List Money :=
  scanSymNum [('€')] text ++ scanNumSym [('€')] text ++ scanBare text

def extract_price_from_text (text : Str) : Option Money :=
  if containsAny (strLower text) per_unit_indicators then none
  else (extract_price_from_text_matches text).find? inPriceRange

/-!
## `extract_tesco_product_price` (simple_local_to_prod.py, lines 1090-1136)

The combined text+context window is computed in the source but — deliberately,
per the comment at lines 1108-1109 — only the text itself is checked for
per-unit indicators.  The price patterns also admit the mis-decoded currency
characters `â` and `¬`, and the accepted range is `[0.01, 50]`.
-/

def tesco_per_unit_indicators : List Str :=
  [("/kg").toList, ("/100g").toList, ("/ml").toList, ("/l").toList, ("/litre").toList,
   ("per kg").toList, ("per 100g").toList, ("per litre").toList,
   ("each").toList, ("per unit").toList, ("unit price").toList, ("price per").toList,
   ("/each").toList, ("€/kg").toList]

def euroSyms : List Char := [('€'), ('â'), ('¬')]

def extract_tesco_product_price_matches (text : Str) : List Money :=
  scanSymNum euroSyms text ++ scanNumSym euroSyms text ++ scanBare text

def inTescoRange (p : Money) : Bool := decide (mny 0 1 ≤ p ∧ p ≤ mnyN 50)

def extract_tesco_product_price (text _context : Str) : Option Money :=
  if containsAny (strLower text) tesco_per_unit_indicators then none
  else (extract_tesco_product_price_matches text).find? inTescoRange

example : extract_price_from_text (("€7.25").toList) = some (mny 7 25) := by decide
example : extract_price_from_text (("€1.99/kg").toList) = none := by decide
example : extract_price_from_text (("price 7,25€ today").toList) = some (mny 7 25) := by decide
example : extract_tesco_product_price (("€3.49").toList) (("per kg").toList) = some (mny 3 49) := by decide
example : extract_tesco_product_price (("€75.00").toList) [] = none := by decide

/-! ## Shared promotion-record model -/

/-- Promotion kind strings used by the detectors. -/
def multi_buy : String := "multi_buy"

def membership_price : String := "membership_price"

def percentage_off : String := "percentage_off"

def fixed_amount_off : String := "fixed_amount_off"

def temporary_discount : String := "temporary_discount"

def clearance : String := "clearance"

def flash_sale : String := "flash_sale"

/-- The `promotion_data` dict assembled by the detectors.
`real_rewards_price` is the extra key only the SuperValu detector stores
(line 868); for the other detectors it stays `none`. -/
structure PromoData where
  original_price : Option Money := none
  promotion_type : Option String := none
  promotion_text : Option String := none
  promotion_discount_value : Option Money := none
  real_rewards_price : Option Money := none
deriving DecidableEq

/-- Python truthiness of an optional float (`None` and `0.0` are falsy). -/
def truthyM : Option Money → Bool
  | none => false
  | some v => v != 0

/-- Python truthiness of an optional string (`None` and `""` are falsy). -/
def truthyS : Option String → Bool
  | none => false
  | some s => !s.isEmpty

/-- Python `round(x, 2)` on the fixed-point model: round to a multiple of
100 units (= one cent), ties to even.  `Int.ediv`/`Int.emod` give the
remainder in `[0, 100)`, which reproduces round-half-even also for negative
inputs. -/
def round2 (x : Money) : Money :=
  let q := Int.ediv x 100
  let r := Int.emod x 100
  if r < 50 then q * 100
  else if 50 < r then (q + 1) * 100
  else if Int.emod q 2 = 0 then q * 100 else (q + 1) * 100

example : round2 (mny 2 0) = mny 2 0 := by decide
example : round2 (mny 5 99 - mny 3 99) = mny 2 0 := by decide
example : round2 150 = 200 := by decide
example : round2 250 = 200 := by decide

/-- render a nonnegative amount the way `f'{x:.2f}'` does -/
def fmt2 (v : Money) : String :=
  let c := (Int.ediv v 100).toNat
  toString (c / 100) ++ (".") ++ (if c % 100 < 10 then ("0") ++ toString (c % 100) else toString (c % 100))

/-!
## `detect_promotion_data` (apify_dunnes_scraper.py, lines 350-545)

The detector reads the Apify item's fields and runs `re.search` for each of
its patterns against `text_to_search` (the lowered promo text, or the lowered
HTML when no promo text exists).  The regex layer is abstracted into
`DunnesScan`: one field per item field / pattern-list, holding the captures of
the first match of each pattern, in pattern-list order.  The function body
below mirrors the Python control flow over those results.
-/

/-- Capture of the first Dunnes multi-buy pattern (of the five, lines
399-410) that matches, tagged by which pattern it was. -/
inductive DunnesMB where
  | buy_x_for (qty : ℕ) (price : Money)
  | any_x_for (qty : ℕ) (price : Money)
  | x_for (qty : ℕ) (price : Money)
  | bogo (buyQty freeQty : ℕ)
  | x_for_y (qtyBuy qtyPay : ℕ)
deriving DecidableEq

/-- One percentage-pattern match: a numeric capture for the `(\d+)%`-style
patterns, or the group-less `half\s*price` pattern. -/
inductive PctCap where
  | num (pct : ℕ)
  | half
deriving DecidableEq

/-- The `re.search` results the Dunnes detector consumes, in source order.
`actor*` fields are the item's explicit promotion fields (camelCase/snake
coalesced by `or`); `mbFirst` the first matching multi-buy pattern with its
captures; `pctCaps`, `savingsCaps`, `wasCaps` the matches of the percentage /
fixed-savings / was-price pattern lists in pattern order (one entry per
pattern that matches, each holding that pattern's first match in the text);
`wasActor` the `originalPrice`/`wasPrice` item field. -/
structure DunnesScan where
  actorPromoType : Option String := none
  actorPromoText : Option String := none
  actorOrigPrice : Option Money := none
  actorDiscount : Option Money := none
  mbFirst : Option DunnesMB := none
  pctCaps : List PctCap := []
  savingsCaps : List Money := []
  wasActor : Option Money := none
  wasCaps : List Money := []
deriving DecidableEq

/-- multi-buy branch bodies (lines 412-456): every branch returns. -/
def dunnesMBData : DunnesMB → PromoData
  | .buy_x_for q p =>
    { promotion_type := some multi_buy,
      promotion_text := some (("Buy ") ++ toString q ++ (" for ") ++ fmt2 p) }
  | .any_x_for q p =>
    { promotion_type := some multi_buy,
      promotion_text := some (("Any ") ++ toString q ++ (" for ") ++ fmt2 p) }
  | .x_for q p =>
    { promotion_type := some multi_buy,
      promotion_text := some (toString q ++ (" for ") ++ fmt2 p) }
  | .bogo b f =>
    { promotion_type := some multi_buy,
      promotion_text := some (("Buy ") ++ toString b ++ (" Get ") ++ toString f ++ (" Free")) }
  | .x_for_y b p =>
    { promotion_type := some multi_buy,
      promotion_text := some (("Buy ") ++ toString b ++ (" for ") ++ toString p) }

/-- percentage loop (lines 466-483): `half price` returns 50; a numeric
capture returns only when `0 < pct <= 90`, otherwise the next pattern is
tried. -/
def dunnesPct : List PctCap → Option PromoData
  | [] => none
  | .half :: _ =>
    some { promotion_type := some percentage_off, promotion_text := some ("Half Price"),
           promotion_discount_value := some (mnyN 50) }
  | .num p :: rest =>
    if 0 < p ∧ p ≤ 90 then
      some { promotion_type := some percentage_off,
             promotion_text := some (toString p ++ ("% Off")),
             promotion_discount_value := some (mnyN p) }
    else dunnesPct rest

/-- fixed-savings loop (lines 492-503): first capture with `0 < amt < 100`
returns. -/
def dunnesSavings : List Money → Option PromoData
  | [] => none
  | a :: rest =>
    if 0 < a ∧ a < mnyN 100 then
      some { promotion_type := some fixed_amount_off,
             promotion_text := some (("Save ") ++ fmt2 a),
             promotion_discount_value := some a }
    else dunnesSavings rest

/-- actor-supplied was price (lines 507-518): `if original_price and
current_price` (both truthy) and `original_price > current_price`. -/
def dunnesWasActor (w8 current : Option Money) : Option PromoData :=
  match w8, current with
  | some w, some c =>
    if (w ≠ 0 ∧ c ≠ 0) ∧ w > c then
      some { original_price := some w, promotion_type := some temporary_discount,
             promotion_text := some (("Was ") ++ fmt2 w),
             promotion_discount_value := some (round2 (w - c)) }
    else none
  | _, _ => none

/-- was-pattern loop (lines 526-543): `if current_price and original_price >
current_price` reports with discount; `elif original_price > 0 and not
current_price` reports without one; otherwise the next pattern is tried. -/
def dunnesWas (current : Option Money) : List Money → Option PromoData
  | [] => none
  | v :: rest =>
    match current with
    | some c =>
      if c ≠ 0 ∧ c < v then
        some { original_price := some v, promotion_type := some temporary_discount,
               promotion_text := some (("Was ") ++ fmt2 v),
               promotion_discount_value := some (round2 (v - c)) }
      else if 0 < v ∧ c = 0 then
        some { original_price := some v, promotion_type := some temporary_discount,
               promotion_text := some (("Was ") ++ fmt2 v) }
      else dunnesWas current rest
    | none =>
      if 0 < v then
        some { original_price := some v, promotion_type := some temporary_discount,
               promotion_text := some (("Was ") ++ fmt2 v) }
      else dunnesWas current rest

/-- `detect_promotion_data` of the Dunnes scraper: actor fields first, then
multi-buy, percentage, fixed savings, was/now — returning at the first hit. -/
def dunnes_detect_promotion_data (s : DunnesScan) (current_price : Option Money) : PromoData :=
  if truthyS s.actorPromoType then
    { promotion_type := s.actorPromoType, promotion_text := s.actorPromoText,
      original_price := s.actorOrigPrice, promotion_discount_value := s.actorDiscount }
  else
    match s.mbFirst with
    | some m => dunnesMBData m
    | none =>
      match dunnesPct s.pctCaps with
      | some d => d
      | none =>
        match dunnesSavings s.savingsCaps with
        | some d => d
        | none =>
          match dunnesWasActor s.wasActor current_price with
          | some d => d
          | none =>
            match dunnesWas current_price s.wasCaps with
            | some d => d
            | none => {}

/-! ## `extract_price_data` (apify_dunnes_scraper.py, lines 547-608) -/

/-- The price record assembled by the Apify scrapers (`url`/`title`/`ean`
string metadata omitted: no claim concerns them). -/
structure PriceRecord where
  price : Money
  original_price : Money
  promotion_type : Option String := none
  promotion_text : Option String := none
  promotion_discount_value : Option Money := none
deriving DecidableEq

/-- `x if x (truthy) else old` for a required field -/
def pyOrKeep : Option Money → Money → Money
  | some o, old => if o ≠ 0 then o else old
  | none, old => old

/-- `x if x (truthy) else old` for an optional field -/
def pyKeepOpt : Option Money → Option Money → Option Money
  | some d, old8 => if d ≠ 0 then some d else old8
  | none, old8 => old8

/-- lines 599-605: copy promotion fields onto the record, each guarded by
dict-truthiness of the corresponding `promotion_data` entry. -/
def dunnesApplyPromo (base : PriceRecord) (pd : PromoData) : PriceRecord :=
  if truthyS pd.promotion_type then
    { base with
      promotion_type := pd.promotion_type,
      promotion_text := pd.promotion_text,
      original_price := pyOrKeep pd.original_price base.original_price,
      promotion_discount_value :=
        pyKeepOpt pd.promotion_discount_value base.promotion_discount_value }
  else base

/-- `extract_price_data`: `priceField` is the coalesced
`price`/`currentPrice`/`salePrice`/`regularPrice` item value (`or` chain:
first truthy value, else `none`), `priceTextCap` the `(\d+[.,]\d{2})`
capture of `priceText` used as fallback.  Validates `0.01 ≤ price ≤ 1000`,
defaults `original_price` to the price itself (line 591), then merges the
promotion data. -/
def dunnes_extract_price_data (s : DunnesScan) (priceField priceTextCap : Option Money) :
    Option PriceRecord :=
  let price? : Option Money :=
    match priceField with
    | some p => if p ≠ 0 then some p else priceTextCap
    | none => priceTextCap
  match price? with
  | none => none
  | some p =>
    if p = 0 then none
    else if p < mny 0 1 ∨ mnyN 1000 < p then none
    else
      let pd := dunnes_detect_promotion_data s (some p)
      some (dunnesApplyPromo { price := p, original_price := p } pd)

example :
    dunnes_extract_price_data {} (some (mny 2 50)) none =
      some { price := mny 2 50, original_price := mny 2 50 } := by decide

example :
    (dunnes_extract_price_data { wasCaps := [mny 5 99] } (some (mny 3 99)) none) =
      some { price := mny 3 99, original_price := mny 5 99,
             promotion_type := some temporary_discount,
             promotion_text := some (("Was ") ++ ("5.99")),
             promotion_discount_value := some (mny 2 0) } := by decide

/-!
## `extract_price_data` (apify_tesco_scraper.py, lines 347-463)

Regex layer abstracted as scan fields on the item's `promotion` object.
The pence conversion `clubcard_price / 100` is exact in this model: every
captured value is a multiple of 100 units, so `Int.ediv` by 100 equals the
Python float division.
-/

/-- Scan of the item's `promotion` dict (lines 390-447). -/
structure TescoPromoScan where
  /-- `'CLUBCARD' in terms.upper() or 'clubcard' in description.lower()` -/
  termsClubcard : Bool := false
  /-- the multi-buy regex (line 397) matches `description` -/
  mbMatch : Bool := false
  /-- first `[€£]\s*(\d+(?:[.,]\d{2})?)` capture in `description` -/
  priceCap : Option Money := none
  /-- `^(\d+)p\s` capture (pence format) -/
  penceCap : Option ℕ := none
  /-- `'p ' in description.lower() or description.lower().endswith('p')` -/
  penceMarker : Bool := false
  description : String := ""
deriving DecidableEq

/-- The Tesco Apify item fields the extractor reads. -/
structure TescoItem where
  /-- `price`/`currentPrice`/`regularPrice` coalesced by `or` -/
  priceField : Option Money := none
  promotion : Option TescoPromoScan := none
  /-- legacy `clubcardPrice`/`promoPrice` coalesced by `or` -/
  clubcardField : Option Money := none
deriving DecidableEq

/-- the record before any promotion is applied (line 381-387; metadata
fields omitted) -/
abbrev plainRec (rp : Money) : PriceRecord := { price := rp, original_price := rp }

/-- the Clubcard price parsed from the promotion description (lines
419-436): the currency-qualified capture, else the pence capture, with the
pence division when the description carries a pence marker and the value
exceeds 10.  Every captured value is a multiple of 100 units, so `Int.ediv`
by 100 is the exact Python float division. -/
def tescoCCValue (pr : TescoPromoScan) : Option Money :=
  match (match pr.priceCap with
         | some v => some v
         | none => pr.penceCap.map (fun n => mnyN n)) with
  | some v0 => some (if pr.penceMarker ∧ mnyN 10 < v0 then Int.ediv v0 100 else v0)
  | none => none

/-- lines 439-445 / 454-459: adopt the Clubcard price when
`0.01 <= clubcard_price < regular_price`. -/
def tescoClubcardUpdate (base : PriceRecord) (rp cc : Money) : PriceRecord :=
  if mny 0 1 ≤ cc ∧ cc < rp then
    { base with
      price := cc, original_price := rp,
      promotion_type := some membership_price,
      promotion_text := some ("Clubcard Price"),
      promotion_discount_value := some (rp - cc) }
  else base

/-- legacy direct-field path (lines 450-461): only runs when no promotion
type was set yet. -/
def tescoLegacy (r : PriceRecord) (rp : Money) (ccField : Option Money) : PriceRecord :=
  match ccField with
  | some cc => if cc ≠ 0 ∧ r.promotion_type = none then tescoClubcardUpdate r rp cc else r
  | none => r

def tesco_extract_price_data (item : TescoItem) : Option PriceRecord :=
  match item.priceField with
  | none => none
  | some rp =>
    if rp = 0 then none
    else if rp < mny 0 1 ∨ mnyN 1000 < rp then none
    else
      match item.promotion with
      | some pr =>
        if pr.mbMatch then
          -- multi-buy: keep the regular unit price and return immediately
          some { plainRec rp with
                 promotion_type := some multi_buy,
                 promotion_text := some pr.description }
        else
          let r1 :=
            if pr.termsClubcard then
              match tescoCCValue pr with
              | some v => tescoClubcardUpdate (plainRec rp) rp v
              | none => plainRec rp
            else plainRec rp
          some (tescoLegacy r1 rp item.clubcardField)
      | none => some (tescoLegacy (plainRec rp) rp item.clubcardField)

example :
    tesco_extract_price_data
      { priceField := some (mnyN 3),
        promotion := some { termsClubcard := true, priceCap := some (mny 2 0),
                            description := "Clubcard Price €2.00" } } =
      some { price := mny 2 0, original_price := mnyN 3,
             promotion_type := some membership_price,
             promotion_text := some ("Clubcard Price"),
             promotion_discount_value := some (mnyN 1) } := by decide

/-!
## `detect_aldi_promotion_data` (simple_local_to_prod.py, lines 627-782)

Sections run in order on the shared dict: was-price, Super Saver
(unconditionally overriding the type with `clearance`), Special Buy
(`flash_sale`, only if no type yet), savings (first matching pattern wins and
breaks, in range or not), multi-buy (the NxM pattern carries the
equal/2-5 quantity guard; it is the last pattern, so a guard rejection ends
the loop).
-/

inductive AldiSav where
  | amt (a : Money)
  | pct (n : ℕ)
deriving DecidableEq

inductive AldiMB where
  | forQ (q : ℕ) (p : Money)
  | buyGet (a b : ℕ)
  | nxm (a b : ℕ)
deriving DecidableEq

/-- `re.search` results of the Aldi detector, in source order. -/
structure AldiScan where
  /-- captures of the six was-price patterns that match, pattern order -/
  wasCaps : List Money := []
  superSaver : Bool := false
  specialBuy : Bool := false
  /-- first matching savings pattern (fixed amount or percentage) -/
  savFirst : Option AldiSav := none
  /-- first matching multi-buy pattern -/
  mbFirst : Option AldiMB := none
deriving DecidableEq

/-- acceptance test of the was loop (line 672):
`original_price > 0 and (current_price is None or original_price > current_price)` -/
def aldiWasAccept (current : Option Money) (v : Money) : Bool :=
  match current with
  | none => decide (0 < v)
  | some c => decide (0 < v) && decide (c < v)

def aldiSec1 (current : Option Money) (caps : List Money) (pd : PromoData) : PromoData :=
  match caps.find? (aldiWasAccept current) with
  | some v =>
    { pd with
      original_price := some v, promotion_type := some temporary_discount,
      promotion_text := some (("Was €") ++ fmt2 v),
      promotion_discount_value :=
        match current with
        | some c => if c ≠ 0 ∧ c < v then some (v - c) else pd.promotion_discount_value
        | none => pd.promotion_discount_value }
  | none => pd

def aldiSec2 (superSaver : Bool) (pd : PromoData) : PromoData :=
  if superSaver then
    { pd with promotion_type := some clearance, promotion_text := some ("Super Saver") }
  else pd

def aldiSec3 (specialBuy : Bool) (pd : PromoData) : PromoData :=
  if specialBuy ∧ ¬ truthyS pd.promotion_type then
    { pd with promotion_type := some flash_sale, promotion_text := some ("Special Buy") }
  else pd

def aldiSec4 (sv : Option AldiSav) (pd : PromoData) : PromoData :=
  match sv with
  | some (.pct n) =>
    if 0 < n ∧ n ≤ 90 then
      { pd with
        promotion_type := some percentage_off,
        promotion_text := some (toString n ++ ("% Off")),
        promotion_discount_value := some (mnyN n) }
    else pd
  | some (.amt a) =>
    if 0 < a ∧ a < mnyN 100 then
      { pd with
        promotion_discount_value :=
          if truthyM pd.promotion_discount_value then pd.promotion_discount_value else some a,
        promotion_type :=
          if truthyS pd.promotion_type then pd.promotion_type else some fixed_amount_off,
        promotion_text :=
          if truthyS pd.promotion_type then pd.promotion_text
          else some (("Save €") ++ fmt2 a) }
    else pd
  | none => pd

def aldiSec5 (mb : Option AldiMB) (pd : PromoData) : PromoData :=
  match mb with
  | some (.forQ q p) =>
    { pd with
      promotion_type := some multi_buy,
      promotion_text := some (toString q ++ (" for €") ++ fmt2 p) }
  | some (.buyGet a b) =>
    { pd with
      promotion_type := some multi_buy,
      promotion_text := some (("Buy ") ++ toString a ++ (" Get ") ++ toString b) }
  | some (.nxm a b) =>
    if a = b ∨ a < 2 ∨ b < 1 ∨ 5 < a ∨ 5 < b then pd
    else
      { pd with
        promotion_type := some multi_buy,
        promotion_text := some (toString a ++ ("X") ++ toString b) }
  | none => pd

def detect_aldi_promotion_data (s : AldiScan) (current : Option Money) : PromoData :=
  aldiSec5 s.mbFirst (aldiSec4 s.savFirst (aldiSec3 s.specialBuy
    (aldiSec2 s.superSaver (aldiSec1 current s.wasCaps {}))))

example :
    (detect_aldi_promotion_data { wasCaps := [mny 5 99] } (some (mny 3 99))).original_price =
      some (mny 5 99) := by decide

/-!
## `detect_supervalu_promotion_data` (simple_local_to_prod.py, lines 784-1069)

Six sections run in order on the shared dict with no early return:
Real Rewards, was-price (skipped when Real Rewards already set both the
member price and the original price), multi-buy (badge first, then fallback
patterns — overriding any earlier type), percentage (first matching pattern
breaks the loop whether in range or not, and overrides any earlier type),
fixed savings (guarded by truthiness of the already-set fields), weekly
specials.
-/

inductive SVMB where
  | anyFor (q : ℕ) (p : Money)
  | forP (q : ℕ) (p : Money)
  | bogoFree (a b : ℕ)
  | bogof
  | b1g1
  | halfBuy (q : ℕ)
deriving DecidableEq

inductive SVPct where
  | num (n : ℕ)
  | half
  | betterHalf
deriving DecidableEq

/-- `re.search` results of the SuperValu detector, in source order. -/
structure SVScan where
  /-- first capture of the four Real Rewards price patterns -/
  realRewardsPrice : Option Money := none
  /-- first capture of the three non-member price patterns -/
  normalPrice : Option Money := none
  /-- one of the two basic Real Rewards indicator patterns matches -/
  basicRewards : Bool := false
  /-- was-pattern matches in pattern order, each with the flag "the ±30-char
  context window around the match contains a per-unit indicator" -/
  wasCaps : List (Money × Bool) := []
  /-- `promotionBadgeComponent` badge text parsed as `N for €X` -/
  badgeMB : Option (ℕ × Money) := none
  /-- first matching fallback multi-buy pattern -/
  mbFirst : Option SVMB := none
  /-- first matching percentage pattern -/
  pctFirst : Option SVPct := none
  /-- fixed-savings captures, pattern order -/
  savCaps : List Money := []
  /-- promo-badge context contains a weekly-special keyword -/
  weeklySpecial : Bool := false
deriving DecidableEq

/-- section 1 (lines 815-888): Real Rewards membership pricing. -/
def svSec1 (s : SVScan) (pd : PromoData) : PromoData :=
  match s.realRewardsPrice with
  | some r =>
    let pd2 :=
      { pd with
        promotion_type := some membership_price,
        promotion_text := some (("Only €") ++ fmt2 r ++ (" Real Rewards Price")),
        real_rewards_price := some r }
    match s.normalPrice with
    | some n =>
      if r < n then
        { pd2 with
          original_price := some n,
          promotion_discount_value := some (round2 (n - r)) }
      else pd2
    | none => pd2
  | none =>
    if s.basicRewards then
      { pd with
        promotion_type := some membership_price,
        promotion_text := some ("Real Rewards Price") }
    else pd

/-- acceptance test of the was loop (lines 917-928): positive capture,
above the current price when one is given, context not per-unit. -/
def svWasAccept (current : Option Money) (vp : Money × Bool) : Bool :=
  (decide (0 < vp.1) &&
    (match current with
     | none => true
     | some c => decide (c < vp.1))) && !vp.2

/-- section 2 (lines 890-939): was price, skipped when Real Rewards already
set both the member price and the original price. -/
def svSec2 (current : Option Money) (s : SVScan) (pd : PromoData) : PromoData :=
  if truthyM pd.real_rewards_price ∧ truthyM pd.original_price then pd
  else
    match s.wasCaps.find? (svWasAccept current) with
    | some vp =>
      let pd2 := { pd with original_price := some vp.1 }
      let pd3 :=
        if truthyS pd2.promotion_type then pd2
        else
          { pd2 with
            promotion_type := some temporary_discount,
            promotion_text := some (("Was €") ++ fmt2 vp.1) }
      match current with
      | some c =>
        if c ≠ 0 ∧ c < vp.1 then { pd3 with promotion_discount_value := some (vp.1 - c) }
        else pd3
      | none => pd3
    | none => pd

def svMBText : SVMB → String
  | .anyFor q p => ("Any ") ++ toString q ++ (" for €") ++ fmt2 p
  | .forP q p => toString q ++ (" for €") ++ fmt2 p
  | .bogoFree a b => ("Buy ") ++ toString a ++ (" Get ") ++ toString b ++ (" Free")
  | .bogof => "Buy One Get One Free"
  | .b1g1 => "Buy One Get One Free"
  | .halfBuy q => ("Half Price when you buy ") ++ toString q

/-- section 3, badge part (lines 944-959): the `promotionBadgeComponent`
multi-buy with its savings computation against `current_price * qty`. -/
def svSec3Badge (current : Option Money) (s : SVScan) (pd : PromoData) : PromoData :=
  match s.badgeMB with
  | some qp =>
    let pd2 :=
      { pd with
        promotion_type := some multi_buy,
        promotion_text := some (toString qp.1 ++ (" for €") ++ fmt2 qp.2) }
    match current with
    | some c =>
      if c ≠ 0 ∧ 0 < qp.1 then
        if qp.2 < c * (qp.1 : ℤ) then
          { pd2 with promotion_discount_value := some (round2 (c * (qp.1 : ℤ) - qp.2)) }
        else pd2
      else pd2
    | none => pd2
  | none => pd

/-- section 3 (lines 941-993): badge multi-buy then fallback patterns (the
fallback only runs when the type is not already `multi_buy`). -/
def svSec3 (current : Option Money) (s : SVScan) (pd : PromoData) : PromoData :=
  let pdB := svSec3Badge current s pd
  if pdB.promotion_type = some multi_buy then pdB
  else
    match s.mbFirst with
    | some m =>
      { pdB with
        promotion_type := some multi_buy,
        promotion_text := some (svMBText m) }
    | none => pdB

/-- section 4 (lines 995-1025): percentage discounts; the first matching
pattern breaks the loop whether its value is in range or not. -/
def svSec4 (s : SVScan) (pd : PromoData) : PromoData :=
  match s.pctFirst with
  | some .half =>
    { pd with
      promotion_type := some percentage_off,
      promotion_text := some ("Half Price"), promotion_discount_value := some (mnyN 50) }
  | some .betterHalf =>
    { pd with
      promotion_type := some percentage_off,
      promotion_text := some ("Better Than Half Price"),
      promotion_discount_value := some (mnyN 50) }
  | some (.num n) =>
    if 0 < n ∧ n ≤ 90 then
      { pd with
        promotion_type := some percentage_off,
        promotion_text := some (toString n ++ ("% Off")),
        promotion_discount_value := some (mnyN n) }
    else pd
  | none => pd

/-- section 5 (lines 1027-1048): fixed savings; first in-range capture wins,
individual fields only set when still falsy. -/
def svSec5 (s : SVScan) (pd : PromoData) : PromoData :=
  match s.savCaps.find? (fun a => decide (0 < a ∧ a < mnyN 100)) with
  | some a =>
    let pd2 :=
      if truthyM pd.promotion_discount_value then pd
      else { pd with promotion_discount_value := some a }
    if truthyS pd2.promotion_type then pd2
    else
      { pd2 with
        promotion_type := some fixed_amount_off,
        promotion_text := some (("Save €") ++ fmt2 a) }
  | none => pd

/-- section 6 (lines 1050-1067): weekly specials, only if no type yet. -/
def svSec6 (s : SVScan) (pd : PromoData) : PromoData :=
  if s.weeklySpecial ∧ ¬ truthyS pd.promotion_type then
    { pd with
      promotion_type := some flash_sale,
      promotion_text := some ("Weekly Special") }
  else pd

def detect_supervalu_promotion_data (s : SVScan) (current : Option Money) : PromoData :=
  svSec6 s (svSec5 s (svSec4 s (svSec3 current s (svSec2 current s (svSec1 s {})))))

/-- Python `x or default` on an optional float. -/
def pyOr : Option Money → Money → Money
  | some v, dflt => if v ≠ 0 then v else dflt
  | none, dflt => dflt

/-- The SuperValu caller's price selection (simple_local_to_prod.py, lines
2052-2073): when a truthy Real Rewards price was detected and is strictly
lower than the normal price (the detected `original_price`, else the
extracted price), the Real Rewards price becomes the main price and the
normal price is written into `original_price`; otherwise the extracted
price is kept and the promotion dict is returned only if it has a type. -/
def supervalu_select_price (price : Money) (pd : PromoData) : Money × Option PromoData :=
  if truthyM pd.real_rewards_price then
    let r := pd.real_rewards_price.getD 0
    let normal := pyOr pd.original_price price
    if r < normal then (r, some { pd with original_price := some normal })
    else (price, if truthyS pd.promotion_type then some pd else none)
  else (price, if truthyS pd.promotion_type then some pd else none)

example :
    supervalu_select_price (mnyN 3)
      (detect_supervalu_promotion_data
        { realRewardsPrice := some (mny 2 0), normalPrice := some (mnyN 3) } (some (mnyN 3))) =
      (mny 2 0,
       some { original_price := some (mnyN 3),
              promotion_type := some membership_price,
              promotion_text := some (("Only €") ++ ("2.00") ++ (" Real Rewards Price")),
              promotion_discount_value := some (mnyN 1),
              real_rewards_price := some (mny 2 0) }) := by decide

/-!
## `extract_tesco_all_prices` (simple_local_to_prod.py, lines 378-546)

Only the classification/aggregation loop over the found prices (lines
449-536) is modelled: each found price carries the text/context containment
flags that drive the if/elif classification chain, and the three summary
fields are updated with Python-truthiness guards (`not result[...]` treats a
stored `0.0` like `None`).
-/

/-- one found price with the containment flags of its element text and
parent context -/
structure TescoPriceFlags where
  value : Money
  /-- per-unit indicator in the element text (line 491) -/
  textPerUnit : Bool := false
  /-- multi-buy phrase in the element text (line 496) -/
  textMB : Bool := false
  /-- `'clubcard price'`/`'clubcard'` in the element text (line 504) -/
  textClubcard : Bool := false
  /-- strong clubcard indicator in the element text (line 509) -/
  textStrongClub : Bool := false
  /-- clubcard phrase in the combined text+context (line 514) -/
  ctxClubcard : Bool := false
  /-- per-unit indicator in the combined text+context (line 521) -/
  ctxPerUnit : Bool := false
deriving DecidableEq

structure TescoSummary where
  regular : Option Money := none
  clubcard : Option Money := none
  per_unit : Option Money := none
deriving DecidableEq

/-- `if not result['per_unit'] or price_value > result['per_unit']` -/
def updPerUnit (cur : Option Money) (v : Money) : Option Money :=
  match cur with
  | none => some v
  | some w => if w = 0 ∨ w < v then some v else cur

/-- `if not result['clubcard'] or price_value < result['clubcard']` -/
def updClub (cur : Option Money) (v : Money) : Option Money :=
  match cur with
  | none => some v
  | some w => if w = 0 ∨ v < w then some v else cur

/-- `if not result['regular']` -/
def updReg (cur : Option Money) (v : Money) : Option Money :=
  match cur with
  | none => some v
  | some w => if w = 0 then some v else cur

/-- the classification chain for one found price (lines 490-534) -/
def classifyStep (r : TescoSummary) (p : TescoPriceFlags) : TescoSummary :=
  if p.textPerUnit then { r with per_unit := updPerUnit r.per_unit p.value }
  else if p.textMB then r
  else if p.textClubcard then { r with clubcard := updClub r.clubcard p.value }
  else if p.textStrongClub then { r with clubcard := updClub r.clubcard p.value }
  else if p.ctxClubcard then { r with clubcard := updClub r.clubcard p.value }
  else if mnyN 20 < p.value then
    if p.ctxPerUnit then { r with per_unit := updPerUnit r.per_unit p.value }
    else { r with regular := updReg r.regular p.value }
  else { r with regular := updReg r.regular p.value }

def extract_tesco_all_prices (ps : List TescoPriceFlags) : TescoSummary :=
  ps.foldl classifyStep {}

/-- the bucket a found price classifies into, independent of the summary -/
inductive TescoBucket where
  | perUnitB
  | multiBuyB
  | clubcardB
  | regularB
deriving DecidableEq

def classifyBucket (p : TescoPriceFlags) : TescoBucket :=
  if p.textPerUnit then .perUnitB
  else if p.textMB then .multiBuyB
  else if p.textClubcard then .clubcardB
  else if p.textStrongClub then .clubcardB
  else if p.ctxClubcard then .clubcardB
  else if mnyN 20 < p.value then
    (if p.ctxPerUnit then .perUnitB else .regularB)
  else .regularB

/-- the values of the prices classifying into bucket `b`, in order -/
def bucketVals (b : TescoBucket) (ps : List TescoPriceFlags) : List Money :=
  (ps.filter (fun p => classifyBucket p == b)).map (fun p => p.value)

def omin : Option Money → Money → Option Money
  | none, v => some v
  | some w, v => some (min w v)

def omax : Option Money → Money → Option Money
  | none, v => some v
  | some w, v => some (max w v)

def ofirst : Option Money → Option Money → Option Money
  | some w, _ => some w
  | none, o => o

def listMin (l : List Money) : Option Money := l.foldl omin none

def listMax (l : List Money) : Option Money := l.foldl omax none

/-! # Claims -/

/-- C2, counterexample: the window around the candidate `€3.49` (its text
plus the context `per kg`) contains the per-unit indicator `per kg`, yet
`extract_tesco_product_price` returns 3.49 as the primary price — the
context is deliberately not inspected (lines 1108-1113). -/
theorem C2_counterexample :
    containsAny (strLower (("€3.49 per kg").toList)) tesco_per_unit_indicators = true ∧
    extract_tesco_product_price (("€3.49").toList) (("per kg").toList) = some (mny 3 49) := by
  decide

/-- C2 (amended): a candidate whose own text contains a per-unit indicator is
never returned as the primary price by either candidate extractor; indicators
appearing only in the surrounding context do not exclude a candidate. -/
theorem C2_amended :
    (∀ text : Str, containsAny (strLower text) per_unit_indicators = true →
      extract_price_from_text text = none) ∧
    (∀ text ctx : Str, containsAny (strLower text) tesco_per_unit_indicators = true →
      extract_tesco_product_price text ctx = none) := by
  constructor
  · intro text h
    simp [extract_price_from_text, h]
  · intro text ctx h
    simp [extract_tesco_product_price, h]

/-- C2, witness at the spec's own example `€1.99/kg`. -/
theorem C2_witness : extract_price_from_text (("€1.99/kg").toList) = none :=
  C2_amended.1 (("€1.99/kg").toList) (by decide)

/-- C5, counterexample: `€75.00` is currency-qualified, lies in
`[0.01, 1000]`, and no per-unit marker is nearby, yet
`extract_tesco_product_price` drops it (its range check is `0.01..50`,
line 1132). -/
theorem C5_counterexample :
    containsAny (strLower (("€75.00").toList)) tesco_per_unit_indicators = false ∧
    (mny 75 0) ∈ extract_tesco_product_price_matches (("€75.00").toList) ∧
    inPriceRange (mny 75 0) = true ∧
    extract_tesco_product_price (("€75.00").toList) [] = none := by
  decide

/-- C5 (amended): with no per-unit marker in the text,
`extract_price_from_text` returns a candidate for every currency-qualified
two-decimal value in `[0.01, 1000.00]`, and `extract_tesco_product_price`
does so only for values in `[0.01, 50.00]` (its product-price cap); the
returned candidate is the first in-range match and itself lies in the
respective range. -/
theorem C5_amended :
    (∀ (text : Str) (v : Money), containsAny (strLower text) per_unit_indicators = false →
      v ∈ scanSymNum [('€')] text → inPriceRange v = true →
      ∃ w, extract_price_from_text text = some w ∧ inPriceRange w = true) ∧
    (∀ (text ctx : Str) (v : Money),
      containsAny (strLower text) tesco_per_unit_indicators = false →
      v ∈ scanSymNum euroSyms text → inTescoRange v = true →
      ∃ w, extract_tesco_product_price text ctx = some w ∧ inTescoRange w = true) := by
  constructor
  · intro text v hind hmem hrange
    have hmem2 : v ∈ extract_price_from_text_matches text :=
      List.mem_append_left _ (List.mem_append_left _ hmem)
    have h1 : ((extract_price_from_text_matches text).find? inPriceRange).isSome :=
      List.find?_isSome.mpr ⟨v, hmem2, hrange⟩
    rcases Option.isSome_iff_exists.mp h1 with ⟨w, hw⟩
    refine ⟨w, ?_, List.find?_some hw⟩
    simp [extract_price_from_text, hind, hw]
  · intro text ctx v hind hmem hrange
    have hmem2 : v ∈ extract_tesco_product_price_matches text :=
      List.mem_append_left _ (List.mem_append_left _ hmem)
    have h1 : ((extract_tesco_product_price_matches text).find? inTescoRange).isSome :=
      List.find?_isSome.mpr ⟨v, hmem2, hrange⟩
    rcases Option.isSome_iff_exists.mp h1 with ⟨w, hw⟩
    refine ⟨w, ?_, List.find?_some hw⟩
    simp [extract_tesco_product_price, hind, hw]

/-- C5, witness at `€7.25`. -/
theorem C5_witness :
    ∃ w, extract_price_from_text (("€7.25").toList) = some w ∧ inPriceRange w = true :=
  C5_amended.1 (("€7.25").toList) (mny 7 25) (by decide) (by decide) (by decide)

/-! helper lemmas about the Dunnes promotion loops -/

lemma dunnesMBData_type (m : DunnesMB) : (dunnesMBData m).promotion_type = some multi_buy := by
  cases m <;> rfl

lemma dunnesPct_char : ∀ (caps : List PctCap) (d : PromoData), dunnesPct caps = some d →
    d.promotion_type = some percentage_off ∧ d.original_price = none := by
  intro caps
  induction caps with
  | nil => intro d h; simp [dunnesPct] at h
  | cons c rest ih =>
    intro d h
    cases c with
    | half =>
      simp only [dunnesPct, Option.some_inj] at h
      subst h; exact ⟨rfl, rfl⟩
    | num p =>
      simp only [dunnesPct] at h
      split at h
      · rcases Option.some_inj.mp h with rfl
        exact ⟨rfl, rfl⟩
      · exact ih d h

lemma dunnesSavings_char : ∀ (caps : List Money) (d : PromoData), dunnesSavings caps = some d →
    d.promotion_type = some fixed_amount_off ∧ d.original_price = none := by
  intro caps
  induction caps with
  | nil => intro d h; simp [dunnesSavings] at h
  | cons a rest ih =>
    intro d h
    simp only [dunnesSavings] at h
    split at h
    · rcases Option.some_inj.mp h with rfl
      exact ⟨rfl, rfl⟩
    · exact ih d h

lemma dunnesWasActor_char (w8 current : Option Money) (d : PromoData)
    (h : dunnesWasActor w8 current = some d) :
    d.promotion_type = some temporary_discount ∧
      ∃ v, d.original_price = some v ∧ w8 = some v ∧ (∀ c, current = some c → c < v) := by
  unfold dunnesWasActor at h
  rcases w8 with _ | w <;> rcases current with _ | c <;> simp at h
  obtain ⟨hcond, hd⟩ := h
  subst hd
  refine ⟨rfl, w, rfl, rfl, ?_⟩
  intro c2 hc2
  rcases Option.some_inj.mp hc2 with rfl
  exact hcond.2

lemma dunnesWas_char : ∀ (current : Option Money) (caps : List Money) (d : PromoData),
    dunnesWas current caps = some d →
    d.promotion_type = some temporary_discount ∧
      ∃ v, d.original_price = some v ∧ v ∈ caps ∧ (∀ c, current = some c → c < v) := by
  intro current caps
  induction caps with
  | nil => intro d h; simp [dunnesWas] at h
  | cons v rest ih =>
    intro d h
    rcases current with _ | c
    · simp only [dunnesWas] at h
      split at h
      · rcases Option.some_inj.mp h with rfl
        exact ⟨rfl, v, rfl, List.mem_cons_self .., by simp⟩
      · rcases ih d h with ⟨h1, v2, h2, h3, h4⟩
        exact ⟨h1, v2, h2, List.mem_cons_of_mem _ h3, h4⟩
    · simp only [dunnesWas] at h
      by_cases h1 : c ≠ 0 ∧ c < v
      · rw [if_pos h1] at h
        rcases Option.some_inj.mp h with rfl
        refine ⟨rfl, v, rfl, List.mem_cons_self .., ?_⟩
        intro c2 hc2
        rcases Option.some_inj.mp hc2 with rfl
        exact h1.2
      · rw [if_neg h1] at h
        by_cases h2 : 0 < v ∧ c = 0
        · rw [if_pos h2] at h
          rcases Option.some_inj.mp h with rfl
          refine ⟨rfl, v, rfl, List.mem_cons_self .., ?_⟩
          intro c2 hc2
          rcases Option.some_inj.mp hc2 with rfl
          rw [h2.2]
          exact h2.1
        · rw [if_neg h2] at h
          rcases ih d h with ⟨g1, v2, g2, g3, g4⟩
          exact ⟨g1, v2, g2, List.mem_cons_of_mem _ g3, g4⟩

/-- C3, counterexample: a SuperValu input whose text matches both a
multi-buy pattern (`3 for €5.00`) and a percentage pattern (`25% off`)
classifies as `percentage_off`: the SuperValu classifier has no early
return, and its percentage section (lines 995-1025) overrides the
multi-buy type set by the earlier section. -/
theorem C3_counterexample :
    (detect_supervalu_promotion_data
        { mbFirst := some (.forP 3 (mny 5 0)), pctFirst := some (.num 25) } none).promotion_type =
      some percentage_off ∧
    ¬ (detect_supervalu_promotion_data
        { mbFirst := some (.forP 3 (mny 5 0)), pctFirst := some (.num 25) } none).promotion_type =
      some multi_buy := by
  decide

/-- C3 (amended): the Dunnes classifier does evaluate multi-buy first and
returns on first success, so any text whose multi-buy pattern matches (with
no actor-supplied promotion) classifies as `multi_buy` regardless of other
matches; the SuperValu classifier instead runs all families and a later
percentage match overrides an earlier multi-buy kind. -/
theorem C3_amended (s : DunnesScan) (cur : Option Money) (m : DunnesMB)
    (hactor : truthyS s.actorPromoType = false) (hm : s.mbFirst = some m) :
    (dunnes_detect_promotion_data s cur).promotion_type = some multi_buy := by
  unfold dunnes_detect_promotion_data
  rw [hactor, hm]
  simpa using dunnesMBData_type m

/-- C3, witness: a Dunnes input matching both `(\d+) for` multi-buy and a
percentage pattern classifies as `multi_buy`. -/
theorem C3_witness :
    (dunnes_detect_promotion_data
        { mbFirst := some (.x_for 3 (mny 5 0)), pctCaps := [.num 25] } none).promotion_type =
      some multi_buy :=
  C3_amended { mbFirst := some (.x_for 3 (mny 5 0)), pctCaps := [.num 25] } none
    (.x_for 3 (mny 5 0)) (by decide) (by decide)

/-! helper lemmas about the Aldi sections -/

lemma aldiSec1_orig_some (cur : Option Money) (caps : List Money) (pd : PromoData) (v : Money)
    (hf : caps.find? (aldiWasAccept cur) = some v) :
    (aldiSec1 cur caps pd).original_price = some v := by
  unfold aldiSec1
  rw [hf]

lemma aldiSec1_none (cur : Option Money) (caps : List Money) (pd : PromoData)
    (hf : caps.find? (aldiWasAccept cur) = none) :
    aldiSec1 cur caps pd = pd := by
  unfold aldiSec1
  rw [hf]

lemma aldiSec1_type (cur : Option Money) (caps : List Money) (pd : PromoData) :
    (aldiSec1 cur caps pd).promotion_type = pd.promotion_type ∨
      (aldiSec1 cur caps pd).promotion_type = some temporary_discount := by
  unfold aldiSec1
  cases caps.find? (aldiWasAccept cur) with
  | none => left; rfl
  | some v => right; rfl

lemma aldiSec2_orig (b : Bool) (pd : PromoData) :
    (aldiSec2 b pd).original_price = pd.original_price := by
  unfold aldiSec2; split <;> rfl

lemma aldiSec3_orig (b : Bool) (pd : PromoData) :
    (aldiSec3 b pd).original_price = pd.original_price := by
  unfold aldiSec3; split <;> rfl

lemma aldiSec4_orig (sv : Option AldiSav) (pd : PromoData) :
    (aldiSec4 sv pd).original_price = pd.original_price := by
  unfold aldiSec4
  split <;> (try split) <;> rfl

lemma aldiSec5_orig (mb : Option AldiMB) (pd : PromoData) :
    (aldiSec5 mb pd).original_price = pd.original_price := by
  unfold aldiSec5
  split <;> (try split) <;> rfl

lemma aldiSec2_type (b : Bool) (pd : PromoData) :
    (aldiSec2 b pd).promotion_type = pd.promotion_type ∨
      (aldiSec2 b pd).promotion_type = some clearance := by
  unfold aldiSec2; split
  · right; rfl
  · left; rfl

lemma aldiSec3_type (b : Bool) (pd : PromoData) :
    (aldiSec3 b pd).promotion_type = pd.promotion_type ∨
      (aldiSec3 b pd).promotion_type = some flash_sale := by
  unfold aldiSec3; split
  · right; rfl
  · left; rfl

lemma aldiSec4_type (sv : Option AldiSav) (pd : PromoData) :
    (aldiSec4 sv pd).promotion_type = pd.promotion_type ∨
      (aldiSec4 sv pd).promotion_type = some percentage_off ∨
      (aldiSec4 sv pd).promotion_type = some fixed_amount_off := by
  unfold aldiSec4
  split
  · split
    · right; left; rfl
    · left; rfl
  · split
    · by_cases ht : truthyS pd.promotion_type = true
      · left; simp [ht]
      · right; right; simp [ht]
    · left; rfl
  · left; rfl

lemma aldiSec5_type (mb : Option AldiMB) (pd : PromoData) :
    (aldiSec5 mb pd).promotion_type = pd.promotion_type ∨
      (aldiSec5 mb pd).promotion_type = some multi_buy := by
  unfold aldiSec5
  split
  · right; rfl
  · right; rfl
  · split
    · left; rfl
    · right; rfl
  · left; rfl

/-- the promotion type after sections 2-5, given the type after section 1 -/
lemma aldi_after1 (a : AldiScan) (pd : PromoData) :
    (aldiSec5 a.mbFirst (aldiSec4 a.savFirst (aldiSec3 a.specialBuy
        (aldiSec2 a.superSaver pd)))).promotion_type = pd.promotion_type ∨
      (aldiSec5 a.mbFirst (aldiSec4 a.savFirst (aldiSec3 a.specialBuy
        (aldiSec2 a.superSaver pd)))).promotion_type ∈
        [some clearance, some flash_sale, some percentage_off, some fixed_amount_off,
         some multi_buy] := by
  rcases aldiSec5_type a.mbFirst (aldiSec4 a.savFirst (aldiSec3 a.specialBuy
      (aldiSec2 a.superSaver pd))) with h5 | h5
  · rw [h5]
    rcases aldiSec4_type a.savFirst (aldiSec3 a.specialBuy (aldiSec2 a.superSaver pd))
        with h4 | h4 | h4
    · rw [h4]
      rcases aldiSec3_type a.specialBuy (aldiSec2 a.superSaver pd) with h3 | h3
      · rw [h3]
        rcases aldiSec2_type a.superSaver pd with h2 | h2
        · rw [h2]; left; rfl
        · rw [h2]; right; simp
      · rw [h3]; right; simp
    · rw [h4]; right; simp
    · rw [h4]; right; simp
  · rw [h5]; right; simp

lemma aldi_none_not_temp (a : AldiScan) (cur : Option Money)
    (hf : a.wasCaps.find? (aldiWasAccept cur) = none) :
    (detect_aldi_promotion_data a cur).promotion_type ≠ some temporary_discount := by
  unfold detect_aldi_promotion_data
  rw [aldiSec1_none cur a.wasCaps {} hf]
  intro h
  rcases aldi_after1 a {} with h1 | h1
  · rw [h] at h1
    exact Option.noConfusion h1.symm
  · rw [h] at h1
    exact absurd h1 (by decide)

/-- C7 (confirmed): a was/now pattern match yields a `temporary_discount`
promotion only when the captured was-price strictly exceeds the current
price; when every was capture is at or below the current price (and, for
Dunnes, the actor's was field too), no `temporary_discount` is reported.
Stated for the Aldi detector (was section at lines 656-681) and the Dunnes
text path (lines 505-543, actor-promotion passthrough excluded). -/
theorem C7_was_guard :
    (∀ (a : AldiScan) (c : Money),
      (detect_aldi_promotion_data a (some c)).promotion_type = some temporary_discount →
      ∃ v, (detect_aldi_promotion_data a (some c)).original_price = some v ∧ c < v) ∧
    (∀ (a : AldiScan) (c : Money), (∀ v ∈ a.wasCaps, v ≤ c) →
      (detect_aldi_promotion_data a (some c)).promotion_type ≠ some temporary_discount) ∧
    (∀ (s : DunnesScan) (c : Money), truthyS s.actorPromoType = false →
      (dunnes_detect_promotion_data s (some c)).promotion_type = some temporary_discount →
      ∃ v, (dunnes_detect_promotion_data s (some c)).original_price = some v ∧ c < v) ∧
    (∀ (s : DunnesScan) (c : Money), truthyS s.actorPromoType = false →
      (∀ v ∈ s.wasCaps, v ≤ c) → (∀ w, s.wasActor = some w → w ≤ c) →
      (dunnes_detect_promotion_data s (some c)).promotion_type ≠ some temporary_discount) := by
  refine ⟨?_, ?_, ?_, ?_⟩
  · intro a c htemp
    cases hf : a.wasCaps.find? (aldiWasAccept (some c)) with
    | none => exact absurd htemp (aldi_none_not_temp a (some c) hf)
    | some v =>
      have hacc := List.find?_some hf
      have hcv : c < v := by
        unfold aldiWasAccept at hacc
        simp at hacc
        exact hacc.2
      refine ⟨v, ?_, hcv⟩
      unfold detect_aldi_promotion_data
      rw [aldiSec5_orig, aldiSec4_orig, aldiSec3_orig, aldiSec2_orig,
        aldiSec1_orig_some (some c) a.wasCaps {} v hf]
  · intro a c hle
    apply aldi_none_not_temp
    apply List.find?_eq_none.mpr
    intro x hx
    unfold aldiWasAccept
    simp
    intro _
    exact hle x hx
  · intro s c hactor htemp
    obtain ⟨apt, atx, aop, adv, mb, pct, sav, wact, wcaps⟩ := s
    simp only at hactor htemp ⊢
    unfold dunnes_detect_promotion_data at htemp ⊢
    dsimp only at htemp ⊢
    rw [hactor] at htemp ⊢
    simp only [Bool.false_eq_true, if_false] at htemp ⊢
    cases mb with
    | some m =>
      dsimp only at htemp
      rw [dunnesMBData_type m] at htemp
      exact absurd (Option.some_inj.mp htemp) (by decide)
    | none =>
      dsimp only at htemp ⊢
      cases hdp : dunnesPct pct with
      | some d =>
        rw [hdp] at htemp
        dsimp only at htemp
        rw [(dunnesPct_char pct d hdp).1] at htemp
        exact absurd (Option.some_inj.mp htemp) (by decide)
      | none =>
        rw [hdp] at htemp
        dsimp only at htemp ⊢
        cases hds : dunnesSavings sav with
        | some d =>
          rw [hds] at htemp
          dsimp only at htemp
          rw [(dunnesSavings_char sav d hds).1] at htemp
          exact absurd (Option.some_inj.mp htemp) (by decide)
        | none =>
          rw [hds] at htemp
          dsimp only at htemp ⊢
          cases hwa : dunnesWasActor wact (some c) with
          | some d =>
            rw [hwa] at htemp
            dsimp only at htemp ⊢
            rcases dunnesWasActor_char wact (some c) d hwa with ⟨_, v, hv, _, hvc⟩
            exact ⟨v, hv, hvc c rfl⟩
          | none =>
            rw [hwa] at htemp
            dsimp only at htemp ⊢
            cases hw : dunnesWas (some c) wcaps with
            | some d =>
              rw [hw] at htemp
              dsimp only at htemp ⊢
              rcases dunnesWas_char (some c) wcaps d hw with ⟨_, v, hv, _, hvc⟩
              exact ⟨v, hv, hvc c rfl⟩
            | none =>
              rw [hw] at htemp
              dsimp only at htemp
              simp at htemp
  · intro s c hactor hle hwle htemp
    obtain ⟨apt, atx, aop, adv, mb, pct, sav, wact, wcaps⟩ := s
    simp only at hactor hle hwle htemp
    unfold dunnes_detect_promotion_data at htemp
    dsimp only at htemp
    rw [hactor] at htemp
    simp only [Bool.false_eq_true, if_false] at htemp
    cases mb with
    | some m =>
      dsimp only at htemp
      rw [dunnesMBData_type m] at htemp
      exact absurd (Option.some_inj.mp htemp) (by decide)
    | none =>
      dsimp only at htemp
      cases hdp : dunnesPct pct with
      | some d =>
        rw [hdp] at htemp
        dsimp only at htemp
        rw [(dunnesPct_char pct d hdp).1] at htemp
        exact absurd (Option.some_inj.mp htemp) (by decide)
      | none =>
        rw [hdp] at htemp
        dsimp only at htemp
        cases hds : dunnesSavings sav with
        | some d =>
          rw [hds] at htemp
          dsimp only at htemp
          rw [(dunnesSavings_char sav d hds).1] at htemp
          exact absurd (Option.some_inj.mp htemp) (by decide)
        | none =>
          rw [hds] at htemp
          dsimp only at htemp
          cases hwa : dunnesWasActor wact (some c) with
          | some d =>
            rcases dunnesWasActor_char wact (some c) d hwa with ⟨_, v, _, hsrc, hvc⟩
            exact absurd (hvc c rfl) (not_lt.mpr (hwle v hsrc))
          | none =>
            rw [hwa] at htemp
            dsimp only at htemp
            cases hw : dunnesWas (some c) wcaps with
            | some d =>
              rcases dunnesWas_char (some c) wcaps d hw with ⟨_, v, _, hmem, hvc⟩
              exact absurd (hvc c rfl) (not_lt.mpr (hle v hmem))
            | none =>
              rw [hw] at htemp
              dsimp only at htemp
              simp at htemp

/-- C7, witness: Aldi page with `Was €5.99` and current price 3.99 reports
an original price strictly above 3.99. -/
theorem C7_witness :
    ∃ v, (detect_aldi_promotion_data { wasCaps := [mny 5 99] } (some (mny 3 99))).original_price =
        some v ∧ mny 3 99 < v :=
  C7_was_guard.1 { wasCaps := [mny 5 99] } (mny 3 99) (by decide)

/-! before its multi-buy section, the Aldi detector never sets `multi_buy` -/

lemma aldi_pre5_type (a : AldiScan) (cur : Option Money) :
    (aldiSec4 a.savFirst (aldiSec3 a.specialBuy (aldiSec2 a.superSaver
        (aldiSec1 cur a.wasCaps {})))).promotion_type ∈
      [none, some temporary_discount, some clearance, some flash_sale,
       some percentage_off, some fixed_amount_off] := by
  rcases aldiSec4_type a.savFirst (aldiSec3 a.specialBuy (aldiSec2 a.superSaver
      (aldiSec1 cur a.wasCaps {}))) with h4 | h4 | h4
  · rw [h4]
    rcases aldiSec3_type a.specialBuy (aldiSec2 a.superSaver (aldiSec1 cur a.wasCaps {}))
        with h3 | h3
    · rw [h3]
      rcases aldiSec2_type a.superSaver (aldiSec1 cur a.wasCaps {}) with h2 | h2
      · rw [h2]
        rcases aldiSec1_type cur a.wasCaps {} with h1 | h1
        · rw [h1]; simp
        · rw [h1]; simp
      · rw [h2]; simp
    · rw [h3]; simp
  · rw [h4]; simp
  · rw [h4]; simp

/-- C8, counterexample: Dunnes text `7 for 7` (no currency symbol, both
captured numbers equal, quantity 7 outside 2-5) matches the third Dunnes
multi-buy pattern `(\d+)\s*for\s*[^\d]*(\d+(?:[.,]\d{2})?)` and yields a
`multi_buy` promotion: the Dunnes patterns require no currency symbol and
carry no equality/quantity guard. -/
theorem C8_counterexample :
    (dunnes_detect_promotion_data { mbFirst := some (.x_for 7 (mnyN 7)) } none).promotion_type =
      some multi_buy ∧
    ¬ (2 ≤ (7 : ℕ) ∧ (7 : ℕ) ≤ 5) := by
  decide

/-- the `NxM` branch of the Aldi multi-buy section, as an equation -/
lemma aldiSec5_nxm (a b : ℕ) (pd : PromoData) :
    aldiSec5 (some (.nxm a b)) pd =
      if a = b ∨ a < 2 ∨ b < 1 ∨ 5 < a ∨ 5 < b then pd
      else
        { pd with
          promotion_type := some multi_buy,
          promotion_text := some (toString a ++ ("X") ++ toString b) } := rfl

/-- C8 (amended): only the Aldi `NxM` multi-buy pattern carries the guard;
for it, the match yields `multi_buy` exactly when the captured numbers are
distinct and within the plausible range (first 2-5, second 1-5).  The other
multi-buy patterns (Dunnes, Aldi `N for`, SuperValu) have no such guard, and
only the SuperValu fallback patterns require the currency symbol. -/
theorem C8_amended (s : AldiScan) (cur : Option Money) (a b : ℕ)
    (hm : s.mbFirst = some (.nxm a b)) :
    (detect_aldi_promotion_data s cur).promotion_type = some multi_buy ↔
      ¬ (a = b ∨ a < 2 ∨ b < 1 ∨ 5 < a ∨ 5 < b) := by
  unfold detect_aldi_promotion_data
  rw [hm, aldiSec5_nxm]
  constructor
  · intro h
    by_cases hg : a = b ∨ a < 2 ∨ b < 1 ∨ 5 < a ∨ 5 < b
    · rw [if_pos hg] at h
      have hpre := aldi_pre5_type s cur
      rw [h] at hpre
      exact absurd hpre (by decide)
    · exact hg
  · intro hg
    rw [if_neg hg]

/-- C8, witness: an Aldi `2x1` capture passes the guard and yields
`multi_buy`. -/
theorem C8_witness :
    (detect_aldi_promotion_data { mbFirst := some (.nxm 2 1) } none).promotion_type =
      some multi_buy :=
  (C8_amended { mbFirst := some (.nxm 2 1) } none 2 1 rfl).mpr (by decide)

/-! helper lemmas about the SuperValu sections -/

lemma svSec1_type (s : SVScan) (pd : PromoData) :
    (svSec1 s pd).promotion_type = pd.promotion_type ∨
      (svSec1 s pd).promotion_type = some membership_price := by
  unfold svSec1
  cases s.realRewardsPrice with
  | some r =>
    dsimp only
    cases s.normalPrice with
    | some n =>
      dsimp only
      split
      · right; rfl
      · right; rfl
    | none => right; rfl
  | none =>
    dsimp only
    split
    · right; rfl
    · left; rfl

lemma svSec2_type (cur : Option Money) (s : SVScan) (pd : PromoData) :
    (svSec2 cur s pd).promotion_type = pd.promotion_type ∨
      (svSec2 cur s pd).promotion_type = some temporary_discount := by
  unfold svSec2
  split
  · left; rfl
  · cases s.wasCaps.find? (svWasAccept cur) with
    | some vp =>
      dsimp only
      by_cases ht : truthyS pd.promotion_type = true
      · rw [if_pos ht]
        cases cur with
        | some c =>
          dsimp only
          split
          · left; rfl
          · left; rfl
        | none => left; rfl
      · rw [if_neg ht]
        cases cur with
        | some c =>
          dsimp only
          split
          · right; rfl
          · right; rfl
        | none => right; rfl
    | none => left; rfl

lemma svSec3Badge_type (cur : Option Money) (s : SVScan) (pd : PromoData) :
    (svSec3Badge cur s pd).promotion_type = pd.promotion_type ∨
      (svSec3Badge cur s pd).promotion_type = some multi_buy := by
  unfold svSec3Badge
  cases s.badgeMB with
  | some qp =>
    dsimp only
    cases cur with
    | some c =>
      right
      dsimp only
      split
      · split <;> rfl
      · rfl
    | none => right; rfl
  | none => left; rfl

lemma svSec3_type (cur : Option Money) (s : SVScan) (pd : PromoData) :
    (svSec3 cur s pd).promotion_type = pd.promotion_type ∨
      (svSec3 cur s pd).promotion_type = some multi_buy := by
  unfold svSec3
  dsimp only
  split
  · rename_i hmulti
    right; exact hmulti
  · cases s.mbFirst with
    | some m => right; rfl
    | none => exact svSec3Badge_type cur s pd

lemma svSec4_type (s : SVScan) (pd : PromoData) :
    (svSec4 s pd).promotion_type = pd.promotion_type ∨
      (svSec4 s pd).promotion_type = some percentage_off := by
  unfold svSec4
  cases s.pctFirst with
  | some x =>
    cases x with
    | num n =>
      dsimp only
      split
      · right; rfl
      · left; rfl
    | half => right; rfl
    | betterHalf => right; rfl
  | none => left; rfl

lemma svSec5_type (s : SVScan) (pd : PromoData) :
    (svSec5 s pd).promotion_type = pd.promotion_type ∨
      (svSec5 s pd).promotion_type = some fixed_amount_off := by
  unfold svSec5
  cases s.savCaps.find? (fun a => decide (0 < a ∧ a < mnyN 100)) with
  | some a =>
    dsimp only
    by_cases hd : truthyM pd.promotion_discount_value = true
    · rw [if_pos hd]
      by_cases ht : truthyS pd.promotion_type = true
      · rw [if_pos ht]; left; rfl
      · rw [if_neg ht]; right; rfl
    · rw [if_neg hd]
      dsimp only
      by_cases ht : truthyS pd.promotion_type = true
      · rw [if_pos ht]; left; rfl
      · rw [if_neg ht]; right; rfl
  | none => left; rfl

lemma svSec6_type (s : SVScan) (pd : PromoData) :
    (svSec6 s pd).promotion_type = pd.promotion_type ∨
      (svSec6 s pd).promotion_type = some flash_sale := by
  unfold svSec6
  split
  · right; rfl
  · left; rfl

/-- the five promotion kinds of the spec's enumeration -/
def fiveKinds : List String :=
  [multi_buy, membership_price, percentage_off, fixed_amount_off, temporary_discount]

/-- the kinds the text-analysis detectors can actually emit -/
def extendedKinds : List String := fiveKinds ++ [clearance, flash_sale]

lemma sv_chain_type (s : SVScan) (cur : Option Money) :
    (detect_supervalu_promotion_data s cur).promotion_type = none ∨
      (detect_supervalu_promotion_data s cur).promotion_type ∈
        [some membership_price, some temporary_discount, some multi_buy,
         some percentage_off, some fixed_amount_off, some flash_sale] := by
  unfold detect_supervalu_promotion_data
  rcases svSec6_type s (svSec5 s (svSec4 s (svSec3 cur s (svSec2 cur s (svSec1 s {})))))
      with h6 | h6 <;> rw [h6]
  · rcases svSec5_type s (svSec4 s (svSec3 cur s (svSec2 cur s (svSec1 s {})))) with h5 | h5 <;>
      rw [h5]
    · rcases svSec4_type s (svSec3 cur s (svSec2 cur s (svSec1 s {}))) with h4 | h4 <;> rw [h4]
      · rcases svSec3_type cur s (svSec2 cur s (svSec1 s {})) with h3 | h3 <;> rw [h3]
        · rcases svSec2_type cur s (svSec1 s {}) with h2 | h2 <;> rw [h2]
          · rcases svSec1_type s {} with h1 | h1 <;> rw [h1]
            · left; rfl
            · right; simp
          · right; simp
        · right; simp
      · right; simp
    · right; simp
  · right; simp

/-- C9, counterexample: an Aldi page containing `Super Saver` yields the
promotion kind `clearance` (line 693), which is outside the spec's
five-kind enumeration; `Special Buy`/weekly-special pages likewise yield
`flash_sale`. -/
theorem C9_counterexample :
    (detect_aldi_promotion_data { superSaver := true } none).promotion_type = some clearance ∧
    clearance ∉ fiveKinds ∧
    (detect_supervalu_promotion_data { weeklySpecial := true } none).promotion_type =
      some flash_sale ∧
    flash_sale ∉ fiveKinds := by
  decide

/-- C9 (amended): the Aldi and SuperValu detectors emit kinds within the
five enumerated ones plus `clearance` and `flash_sale`; the Dunnes text
paths emit only kinds within the five (its actor-supplied promotion type is
passed through unchecked and is excluded here). -/
theorem C9_amended :
    (∀ (a : AldiScan) (cur : Option Money) (k : String),
      (detect_aldi_promotion_data a cur).promotion_type = some k → k ∈ extendedKinds) ∧
    (∀ (s : SVScan) (cur : Option Money) (k : String),
      (detect_supervalu_promotion_data s cur).promotion_type = some k → k ∈ extendedKinds) ∧
    (∀ (s : DunnesScan) (cur : Option Money) (k : String), truthyS s.actorPromoType = false →
      (dunnes_detect_promotion_data s cur).promotion_type = some k → k ∈ fiveKinds) := by
  refine ⟨?_, ?_, ?_⟩
  · intro a cur k h
    unfold detect_aldi_promotion_data at h
    rcases aldi_after1 a (aldiSec1 cur a.wasCaps {}) with h1 | h1
    · rw [h] at h1
      rcases aldiSec1_type cur a.wasCaps {} with h2 | h2
      · rw [h2] at h1
        simp at h1
      · rw [h2] at h1
        rcases Option.some_inj.mp h1 with rfl
        decide
    · rw [h] at h1
      simp only [List.mem_cons, List.mem_singleton, Option.some_inj] at h1
      rcases h1 with rfl | rfl | rfl | rfl | rfl | h1
      · decide
      · decide
      · decide
      · decide
      · decide
      · simp at h1
  · intro s cur k h
    rcases sv_chain_type s cur with h1 | h1
    · rw [h] at h1; simp at h1
    · rw [h] at h1
      simp only [List.mem_cons, List.mem_singleton, Option.some_inj] at h1
      rcases h1 with rfl | rfl | rfl | rfl | rfl | rfl | h1
      · decide
      · decide
      · decide
      · decide
      · decide
      · decide
      · simp at h1
  · intro s cur k hactor h
    obtain ⟨apt, atx, aop, adv, mb, pct, sav, wact, wcaps⟩ := s
    simp only at hactor h
    unfold dunnes_detect_promotion_data at h
    dsimp only at h
    rw [hactor] at h
    simp only [Bool.false_eq_true, if_false] at h
    cases mb with
    | some m =>
      dsimp only at h
      rw [dunnesMBData_type m] at h
      rcases Option.some_inj.mp h with rfl
      decide
    | none =>
      dsimp only at h
      cases hdp : dunnesPct pct with
      | some d =>
        rw [hdp] at h
        dsimp only at h
        rw [(dunnesPct_char pct d hdp).1] at h
        rcases Option.some_inj.mp h with rfl
        decide
      | none =>
        rw [hdp] at h
        dsimp only at h
        cases hds : dunnesSavings sav with
        | some d =>
          rw [hds] at h
          dsimp only at h
          rw [(dunnesSavings_char sav d hds).1] at h
          rcases Option.some_inj.mp h with rfl
          decide
        | none =>
          rw [hds] at h
          dsimp only at h
          cases hwa : dunnesWasActor wact cur with
          | some d =>
            rw [hwa] at h
            dsimp only at h
            rw [(dunnesWasActor_char wact cur d hwa).1] at h
            rcases Option.some_inj.mp h with rfl
            decide
          | none =>
            rw [hwa] at h
            dsimp only at h
            cases hw : dunnesWas cur wcaps with
            | some d =>
              rw [hw] at h
              dsimp only at h
              rw [(dunnesWas_char cur wcaps d hw).1] at h
              rcases Option.some_inj.mp h with rfl
              decide
            | none =>
              rw [hw] at h
              dsimp only at h
              simp at h

/-- C9, witness: the `clearance` kind emitted for an Aldi Super Saver page
is among the extended kind set. -/
theorem C9_witness : clearance ∈ extendedKinds :=
  C9_amended.1 { superSaver := true } none clearance (by decide)

/-! helper lemmas about the Tesco extractor -/

/-- the record after the Clubcard price is adopted -/
abbrev memRec (rp cc : Money) : PriceRecord :=
  { price := cc, original_price := rp, promotion_type := some membership_price,
    promotion_text := some ("Clubcard Price"),
    promotion_discount_value := some (rp - cc) }

lemma tescoClubcardUpdate_plain (rp cc : Money) :
    tescoClubcardUpdate (plainRec rp) rp cc = plainRec rp ∨
      (mny 0 1 ≤ cc ∧ cc < rp ∧ tescoClubcardUpdate (plainRec rp) rp cc = memRec rp cc) := by
  unfold tescoClubcardUpdate
  split
  · rename_i hc
    right
    exact ⟨hc.1, hc.2, rfl⟩
  · left; rfl

lemma tescoLegacy_plain (rp : Money) (ccf : Option Money) :
    tescoLegacy (plainRec rp) rp ccf = plainRec rp ∨
      ∃ cc, mny 0 1 ≤ cc ∧ cc < rp ∧ tescoLegacy (plainRec rp) rp ccf = memRec rp cc := by
  unfold tescoLegacy
  cases ccf with
  | none => left; rfl
  | some cc =>
    dsimp only
    split
    · rcases tescoClubcardUpdate_plain rp cc with h | ⟨h1, h2, h3⟩
      · left; exact h
      · right; exact ⟨cc, h1, h2, h3⟩
    · left; rfl

lemma tescoLegacy_mem (rp cc : Money) (ccf : Option Money) :
    tescoLegacy (memRec rp cc) rp ccf = memRec rp cc := by
  unfold tescoLegacy
  cases ccf with
  | none => rfl
  | some c2 =>
    dsimp only
    split
    · rename_i hg
      exact absurd hg.2 (by simp)
    · rfl

/-- every record the Tesco extractor produces is the plain record, the
plain record with a multi-buy annotation, or the Clubcard record. -/
lemma tesco_extract_char (item : TescoItem) (rec : PriceRecord)
    (h : tesco_extract_price_data item = some rec) :
    ∃ rp, mny 0 1 ≤ rp ∧
      (rec = plainRec rp ∨
       (∃ t, rec =
          { plainRec rp with
            promotion_type := some multi_buy,
            promotion_text := some t }) ∨
       ∃ cc, mny 0 1 ≤ cc ∧ cc < rp ∧ rec = memRec rp cc) := by
  obtain ⟨pf, promo, ccf⟩ := item
  unfold tesco_extract_price_data at h
  dsimp only at h
  cases pf with
  | none => simp at h
  | some rp =>
    dsimp only at h
    by_cases h0 : rp = 0
    · rw [if_pos h0] at h; simp at h
    · rw [if_neg h0] at h
      by_cases hr : rp < mny 0 1 ∨ mnyN 1000 < rp
      · rw [if_pos hr] at h; simp at h
      · rw [if_neg hr] at h
        have hrp : mny 0 1 ≤ rp := not_lt.mp (fun hlt => hr (Or.inl hlt))
        refine ⟨rp, hrp, ?_⟩
        cases promo with
        | none =>
          dsimp only at h
          rcases Option.some_inj.mp h with rfl
          rcases tescoLegacy_plain rp ccf with hL | ⟨cc, h1, h2, hL⟩
          · left; exact hL
          · right; right; exact ⟨cc, h1, h2, hL⟩
        | some pr =>
          dsimp only at h
          by_cases hmb : pr.mbMatch = true
          · rw [if_pos hmb] at h
            rcases Option.some_inj.mp h with rfl
            right; left
            exact ⟨pr.description, rfl⟩
          · rw [if_neg hmb] at h
            by_cases htc : pr.termsClubcard = true
            · rw [if_pos htc] at h
              cases hv : tescoCCValue pr with
              | some v =>
                rw [hv] at h
                have hq : some (tescoLegacy (tescoClubcardUpdate (plainRec rp) rp v) rp ccf) =
                    some rec := h
                rcases tescoClubcardUpdate_plain rp v with hU | ⟨h1, h2, hU⟩
                · rw [hU] at hq
                  rcases Option.some_inj.mp hq with rfl
                  rcases tescoLegacy_plain rp ccf with hL | ⟨cc, g1, g2, hL⟩
                  · left; exact hL
                  · right; right; exact ⟨cc, g1, g2, hL⟩
                · rw [hU] at hq
                  rcases Option.some_inj.mp hq with rfl
                  right; right
                  exact ⟨v, h1, h2, tescoLegacy_mem rp v ccf⟩
              | none =>
                rw [hv] at h
                have hq : some (tescoLegacy (plainRec rp) rp ccf) = some rec := h
                rcases Option.some_inj.mp hq with rfl
                rcases tescoLegacy_plain rp ccf with hL | ⟨cc, g1, g2, hL⟩
                · left; exact hL
                · right; right; exact ⟨cc, g1, g2, hL⟩
            · rw [if_neg htc] at h
              rcases Option.some_inj.mp h with rfl
              rcases tescoLegacy_plain rp ccf with hL | ⟨cc, g1, g2, hL⟩
              · left; exact hL
              · right; right; exact ⟨cc, g1, g2, hL⟩

/-! helper lemmas about the Dunnes record assembly -/

lemma dunnesMBData_fields (m : DunnesMB) :
    (dunnesMBData m).original_price = none ∧
      (dunnesMBData m).promotion_discount_value = none := by
  cases m <;> exact ⟨rfl, rfl⟩

lemma dunnesWasActor_dv (w8 : Option Money) (c : Money) (d : PromoData)
    (h : dunnesWasActor w8 (some c) = some d) :
    ∃ v, d.original_price = some v ∧
      d.promotion_discount_value = some (round2 (v - c)) := by
  unfold dunnesWasActor at h
  cases w8 with
  | none => simp at h
  | some w =>
    simp at h
    obtain ⟨hc, hd⟩ := h
    subst hd
    exact ⟨w, rfl, rfl⟩

lemma dunnesWas_dv (c : Money) : ∀ (caps : List Money) (d : PromoData),
    dunnesWas (some c) caps = some d →
    ∃ v, d.original_price = some v ∧
      (d.promotion_discount_value = some (round2 (v - c)) ∨
       d.promotion_discount_value = none) := by
  intro caps
  induction caps with
  | nil => intro d h; simp [dunnesWas] at h
  | cons v rest ih =>
    intro d h
    simp only [dunnesWas] at h
    by_cases h1 : c ≠ 0 ∧ c < v
    · rw [if_pos h1] at h
      rcases Option.some_inj.mp h with rfl
      exact ⟨v, rfl, Or.inl rfl⟩
    · rw [if_neg h1] at h
      by_cases h2 : 0 < v ∧ c = 0
      · rw [if_pos h2] at h
        rcases Option.some_inj.mp h with rfl
        exact ⟨v, rfl, Or.inr rfl⟩
      · rw [if_neg h2] at h
        exact ih d h

lemma applyPromo_true (base : PriceRecord) (pd : PromoData)
    (ht : truthyS pd.promotion_type = true) :
    dunnesApplyPromo base pd =
      { base with
        promotion_type := pd.promotion_type,
        promotion_text := pd.promotion_text,
        original_price := pyOrKeep pd.original_price base.original_price,
        promotion_discount_value :=
          pyKeepOpt pd.promotion_discount_value base.promotion_discount_value } := by
  unfold dunnesApplyPromo
  rw [if_pos ht]

lemma applyPromo_false (base : PriceRecord) (pd : PromoData)
    (ht : truthyS pd.promotion_type = false) :
    dunnesApplyPromo base pd = base := by
  unfold dunnesApplyPromo
  rw [ht]
  simp

/-- every record the Dunnes extractor produces (actor-promotion passthrough
excluded) has a valid price, original price at or above the price, and any
`temporary_discount` discount value equal to the rounded difference. -/
lemma dunnes_extract_char (s : DunnesScan) (pf ptc : Option Money) (rec : PriceRecord)
    (hactor : truthyS s.actorPromoType = false)
    (h : dunnes_extract_price_data s pf ptc = some rec) :
    mny 0 1 ≤ rec.price ∧ rec.price ≤ rec.original_price ∧
      (rec.promotion_type = some temporary_discount →
        ∀ dv, rec.promotion_discount_value = some dv →
          dv = round2 (rec.original_price - rec.price)) := by
  unfold dunnes_extract_price_data at h
  dsimp only at h
  rcases hq : (match pf with
               | some p => if p ≠ 0 then some p else ptc
               | none => ptc) with _ | p
  · rw [hq] at h
    simp at h
  · rw [hq] at h
    dsimp only at h
    by_cases h0 : p = 0
    · rw [if_pos h0] at h; simp at h
    · rw [if_neg h0] at h
      by_cases hr : p < mny 0 1 ∨ mnyN 1000 < p
      · rw [if_pos hr] at h; simp at h
      · rw [if_neg hr] at h
        have hp1 : mny 0 1 ≤ p := not_lt.mp (fun hlt => hr (Or.inl hlt))
        have hp0 : (0 : ℤ) < p := lt_of_lt_of_le (by decide) hp1
        have hq2 : some (dunnesApplyPromo (plainRec p)
            (dunnes_detect_promotion_data s (some p))) = some rec := h
        rcases Option.some_inj.mp hq2 with rfl
        clear h hq hq2
        obtain ⟨apt, atx, aop, adv, mb, pct, sav, wact, wcaps⟩ := s
        simp only at hactor
        unfold dunnes_detect_promotion_data
        dsimp only
        rw [hactor]
        simp only [Bool.false_eq_true, if_false]
        cases mb with
        | some m =>
          dsimp only
          have ht : truthyS (dunnesMBData m).promotion_type = true := by
            rw [dunnesMBData_type m]; decide
          rw [applyPromo_true _ _ ht, (dunnesMBData_fields m).1, (dunnesMBData_fields m).2]
          refine ⟨hp1, le_refl p, ?_⟩
          intro htemp
          rw [dunnesMBData_type m] at htemp
          exact absurd (Option.some_inj.mp htemp) (by decide)
        | none =>
          dsimp only
          cases hdp : dunnesPct pct with
          | some d =>
            obtain ⟨hpt, hor⟩ := dunnesPct_char pct d hdp
            have ht : truthyS d.promotion_type = true := by rw [hpt]; decide
            rw [applyPromo_true _ _ ht, hpt, hor]
            refine ⟨hp1, le_refl p, ?_⟩
            intro htemp
            exact absurd (Option.some_inj.mp htemp) (by decide)
          | none =>
            dsimp only
            cases hds : dunnesSavings sav with
            | some d =>
              obtain ⟨hpt, hor⟩ := dunnesSavings_char sav d hds
              have ht : truthyS d.promotion_type = true := by rw [hpt]; decide
              rw [applyPromo_true _ _ ht, hpt, hor]
              refine ⟨hp1, le_refl p, ?_⟩
              intro htemp
              exact absurd (Option.some_inj.mp htemp) (by decide)
            | none =>
              dsimp only
              cases hwa : dunnesWasActor wact (some p) with
              | some d =>
                obtain ⟨hpt, v, hor, _, hvc⟩ := dunnesWasActor_char wact (some p) d hwa
                obtain ⟨v2, hor2, hdv⟩ := dunnesWasActor_dv wact p d hwa
                rcases Option.some_inj.mp (hor ▸ hor2) with rfl
                have hpv : p < v := hvc p rfl
                have hvne : v ≠ 0 := ne_of_gt (lt_trans hp0 hpv)
                have ht : truthyS d.promotion_type = true := by rw [hpt]; decide
                rw [applyPromo_true _ _ ht, hor]
                refine ⟨hp1, ?_, ?_⟩
                · show p ≤ pyOrKeep (some v) p
                  rw [pyOrKeep, if_pos hvne]
                  exact le_of_lt hpv
                · intro _ dv hdv2
                  show dv = round2 (pyOrKeep (some v) p - p)
                  rw [pyOrKeep, if_pos hvne]
                  have hdv3 : pyKeepOpt d.promotion_discount_value none = some dv := hdv2
                  rw [hdv, pyKeepOpt] at hdv3
                  by_cases hz : round2 (v - p) ≠ 0
                  · rw [if_pos hz] at hdv3
                    exact (Option.some_inj.mp hdv3).symm
                  · rw [if_neg hz] at hdv3
                    exact absurd hdv3 (by simp)
              | none =>
                dsimp only
                cases hw : dunnesWas (some p) wcaps with
                | some d =>
                  obtain ⟨hpt, v, hor, _, hvc⟩ := dunnesWas_char (some p) wcaps d hw
                  obtain ⟨v2, hor2, hdv⟩ := dunnesWas_dv p wcaps d hw
                  rcases Option.some_inj.mp (hor ▸ hor2) with rfl
                  have hpv : p < v := hvc p rfl
                  have hvne : v ≠ 0 := ne_of_gt (lt_trans hp0 hpv)
                  have ht : truthyS d.promotion_type = true := by rw [hpt]; decide
                  rw [applyPromo_true _ _ ht, hor]
                  refine ⟨hp1, ?_, ?_⟩
                  · show p ≤ pyOrKeep (some v) p
                    rw [pyOrKeep, if_pos hvne]
                    exact le_of_lt hpv
                  · intro _ dv hdv2
                    show dv = round2 (pyOrKeep (some v) p - p)
                    rw [pyOrKeep, if_pos hvne]
                    have hdv3 : pyKeepOpt d.promotion_discount_value none = some dv := hdv2
                    rcases hdv with hdv | hdv
                    · rw [hdv, pyKeepOpt] at hdv3
                      by_cases hz : round2 (v - p) ≠ 0
                      · rw [if_pos hz] at hdv3
                        exact (Option.some_inj.mp hdv3).symm
                      · rw [if_neg hz] at hdv3
                        exact absurd hdv3 (by simp)
                    · rw [hdv, pyKeepOpt] at hdv3
                      exact absurd hdv3 (by simp)
                | none =>
                  dsimp only
                  have ht : truthyS (({} : PromoData)).promotion_type = false := by decide
                  rw [applyPromo_false _ _ ht]
                  refine ⟨hp1, le_refl p, ?_⟩
                  intro htemp
                  exact Option.noConfusion htemp

/-! preservation lemmas for the later SuperValu sections -/

lemma svSec3Badge_orig (cur : Option Money) (s : SVScan) (pd : PromoData) :
    (svSec3Badge cur s pd).original_price = pd.original_price := by
  unfold svSec3Badge
  cases s.badgeMB with
  | some qp =>
    dsimp only
    cases cur with
    | some c =>
      dsimp only
      split
      · split <;> rfl
      · rfl
    | none => rfl
  | none => rfl

lemma svSec3Badge_rrp (cur : Option Money) (s : SVScan) (pd : PromoData) :
    (svSec3Badge cur s pd).real_rewards_price = pd.real_rewards_price := by
  unfold svSec3Badge
  cases s.badgeMB with
  | some qp =>
    dsimp only
    cases cur with
    | some c =>
      dsimp only
      split
      · split <;> rfl
      · rfl
    | none => rfl
  | none => rfl

lemma svSec3_orig (cur : Option Money) (s : SVScan) (pd : PromoData) :
    (svSec3 cur s pd).original_price = pd.original_price := by
  unfold svSec3
  dsimp only
  split
  · exact svSec3Badge_orig cur s pd
  · cases s.mbFirst with
    | some m => exact svSec3Badge_orig cur s pd
    | none => exact svSec3Badge_orig cur s pd

lemma svSec3_rrp (cur : Option Money) (s : SVScan) (pd : PromoData) :
    (svSec3 cur s pd).real_rewards_price = pd.real_rewards_price := by
  unfold svSec3
  dsimp only
  split
  · exact svSec3Badge_rrp cur s pd
  · cases s.mbFirst with
    | some m => exact svSec3Badge_rrp cur s pd
    | none => exact svSec3Badge_rrp cur s pd

lemma svSec4_orig (s : SVScan) (pd : PromoData) :
    (svSec4 s pd).original_price = pd.original_price := by
  unfold svSec4
  split <;> (try split) <;> rfl

lemma svSec4_rrp (s : SVScan) (pd : PromoData) :
    (svSec4 s pd).real_rewards_price = pd.real_rewards_price := by
  unfold svSec4
  split <;> (try split) <;> rfl

lemma svSec5_orig (s : SVScan) (pd : PromoData) :
    (svSec5 s pd).original_price = pd.original_price := by
  unfold svSec5
  cases s.savCaps.find? (fun a => decide (0 < a ∧ a < mnyN 100)) with
  | some a =>
    dsimp only
    split <;> split <;> rfl
  | none => rfl

lemma svSec5_rrp (s : SVScan) (pd : PromoData) :
    (svSec5 s pd).real_rewards_price = pd.real_rewards_price := by
  unfold svSec5
  cases s.savCaps.find? (fun a => decide (0 < a ∧ a < mnyN 100)) with
  | some a =>
    dsimp only
    split <;> split <;> rfl
  | none => rfl

lemma svSec6_orig (s : SVScan) (pd : PromoData) :
    (svSec6 s pd).original_price = pd.original_price := by
  unfold svSec6
  split <;> rfl

lemma svSec6_rrp (s : SVScan) (pd : PromoData) :
    (svSec6 s pd).real_rewards_price = pd.real_rewards_price := by
  unfold svSec6
  split <;> rfl

lemma svSec2_rrp (cur : Option Money) (s : SVScan) (pd : PromoData) :
    (svSec2 cur s pd).real_rewards_price = pd.real_rewards_price := by
  unfold svSec2
  split
  · rfl
  · cases s.wasCaps.find? (svWasAccept cur) with
    | some vp =>
      dsimp only
      by_cases ht : truthyS pd.promotion_type = true
      · rw [if_pos ht]
        cases cur with
        | some c =>
          dsimp only
          split <;> rfl
        | none => rfl
      · rw [if_neg ht]
        cases cur with
        | some c =>
          dsimp only
          split <;> rfl
        | none => rfl
    | none => rfl

lemma svSec1_rrp_empty (s : SVScan) :
    (svSec1 s {}).real_rewards_price = s.realRewardsPrice := by
  unfold svSec1
  cases s.realRewardsPrice with
  | some r =>
    dsimp only
    cases s.normalPrice with
    | some n =>
      dsimp only
      split <;> rfl
    | none => rfl
  | none =>
    dsimp only
    split <;> rfl

lemma svSec1_orig_char (s : SVScan) (o : Money)
    (h : (svSec1 s {}).original_price = some o) :
    ∃ r, s.realRewardsPrice = some r ∧ r < o := by
  unfold svSec1 at h
  cases hrr : s.realRewardsPrice with
  | some r =>
    rw [hrr] at h
    dsimp only at h
    cases hn : s.normalPrice with
    | some n =>
      rw [hn] at h
      dsimp only at h
      split at h
      · rename_i hrn
        rcases Option.some_inj.mp h with rfl
        exact ⟨r, rfl, hrn⟩
      · exact absurd h (by simp)
    | none =>
      rw [hn] at h
      exact absurd h (by simp)
  | none =>
    rw [hrr] at h
    dsimp only at h
    split at h
    · exact absurd h (by simp)
    · exact absurd h (by simp)

lemma svSec2_orig_char (cur : Option Money) (s : SVScan) (pd : PromoData) (o : Money)
    (h : (svSec2 cur s pd).original_price = some o) :
    pd.original_price = some o ∨ (0 < o ∧ ∀ c, cur = some c → c < o) := by
  unfold svSec2 at h
  split at h
  · left; exact h
  · cases hf : s.wasCaps.find? (svWasAccept cur) with
    | some vp =>
      rw [hf] at h
      dsimp only at h
      have hacc := List.find?_some hf
      have h01 : 0 < vp.1 ∧ (∀ c, cur = some c → c < vp.1) := by
        unfold svWasAccept at hacc
        cases cur with
        | some c =>
          simp at hacc
          refine ⟨hacc.1.1, ?_⟩
          intro c2 hc2
          rcases Option.some_inj.mp hc2 with rfl
          exact hacc.1.2
        | none =>
          simp at hacc
          exact ⟨hacc.1, fun c2 hc2 => Option.noConfusion hc2⟩
      have ho : vp.1 = o := by
        by_cases ht : truthyS pd.promotion_type = true
        · rw [if_pos ht] at h
          cases cur with
          | some c =>
            dsimp only at h
            split at h
            · exact Option.some_inj.mp h
            · exact Option.some_inj.mp h
          | none => exact Option.some_inj.mp h
        · rw [if_neg ht] at h
          cases cur with
          | some c =>
            dsimp only at h
            split at h
            · exact Option.some_inj.mp h
            · exact Option.some_inj.mp h
          | none => exact Option.some_inj.mp h
      right
      rw [← ho]
      exact h01
    | none =>
      rw [hf] at h
      left; exact h

lemma sv_detect_rrp (s : SVScan) (cur : Option Money) :
    (detect_supervalu_promotion_data s cur).real_rewards_price = s.realRewardsPrice := by
  unfold detect_supervalu_promotion_data
  rw [svSec6_rrp, svSec5_rrp, svSec4_rrp, svSec3_rrp, svSec2_rrp, svSec1_rrp_empty]

lemma sv_detect_orig (s : SVScan) (p o : Money)
    (h : (detect_supervalu_promotion_data s (some p)).original_price = some o) :
    p < o ∨ (∃ r, s.realRewardsPrice = some r ∧ r < o) := by
  unfold detect_supervalu_promotion_data at h
  rw [svSec6_orig, svSec5_orig, svSec4_orig, svSec3_orig] at h
  rcases svSec2_orig_char (some p) s _ o h with h2 | ⟨hpos, hc⟩
  · rcases svSec1_orig_char s o h2 with ⟨r, hr, hro⟩
    exact Or.inr ⟨r, hr, hro⟩
  · exact Or.inl (hc p rfl)

/-- records returned by the SuperValu selection always carry an original
price strictly above the selected main price (given positive captured
rewards prices and a positive extracted price). -/
lemma supervalu_select_orig (s : SVScan) (p : Money)
    (hpos : ∀ r, s.realRewardsPrice = some r → 0 < r) (_hp : 0 < p)
    (pd2 : PromoData) (o : Money)
    (hsel : (supervalu_select_price p (detect_supervalu_promotion_data s (some p))).2 = some pd2)
    (horig : pd2.original_price = some o) :
    (supervalu_select_price p (detect_supervalu_promotion_data s (some p))).1 < o := by
  have hrrp := sv_detect_rrp s (some p)
  unfold supervalu_select_price at hsel ⊢
  by_cases hrt :
      truthyM (detect_supervalu_promotion_data s (some p)).real_rewards_price = true
  · rw [if_pos hrt] at hsel ⊢
    dsimp only at hsel ⊢
    have hrr : ∃ r0, s.realRewardsPrice = some r0 ∧ r0 ≠ 0 := by
      rw [hrrp] at hrt
      cases hx : s.realRewardsPrice with
      | none => rw [hx] at hrt; simp [truthyM] at hrt
      | some r0 =>
        rw [hx] at hrt
        simp [truthyM] at hrt
        exact ⟨r0, rfl, hrt⟩
    obtain ⟨r0, hr0, hr0ne⟩ := hrr
    have hgetD : (detect_supervalu_promotion_data s (some p)).real_rewards_price.getD 0 = r0 := by
      rw [hrrp, hr0]
      rfl
    by_cases hlt :
        (detect_supervalu_promotion_data s (some p)).real_rewards_price.getD 0 <
          pyOr (detect_supervalu_promotion_data s (some p)).original_price p
    · rw [if_pos hlt] at hsel ⊢
      dsimp only at hsel ⊢
      rcases Option.some_inj.mp hsel with rfl
      have ho : pyOr (detect_supervalu_promotion_data s (some p)).original_price p = o :=
        Option.some_inj.mp horig
      show (detect_supervalu_promotion_data s (some p)).real_rewards_price.getD 0 < o
      rw [hgetD]
      rw [hgetD, ho] at hlt
      exact hlt
    · rw [if_neg hlt] at hsel ⊢
      dsimp only at hsel ⊢
      by_cases hts :
          truthyS (detect_supervalu_promotion_data s (some p)).promotion_type = true
      · rw [if_pos hts] at hsel
        rcases Option.some_inj.mp hsel with rfl
        rcases sv_detect_orig s p o horig with hpo | ⟨r1, hr1, hr1o⟩
        · exact hpo
        · have hr01 : r0 = r1 := Option.some_inj.mp (hr0.symm.trans hr1)
          subst hr01
          exfalso
          apply hlt
          rw [hgetD, horig]
          have hone : o ≠ 0 := ne_of_gt (lt_trans (hpos r0 hr1) hr1o)
          rw [pyOr, if_pos hone]
          exact hr1o
      · rw [if_neg hts] at hsel
        exact absurd hsel (by simp)
  · rw [if_neg hrt] at hsel ⊢
    dsimp only at hsel ⊢
    by_cases hts :
        truthyS (detect_supervalu_promotion_data s (some p)).promotion_type = true
    · rw [if_pos hts] at hsel
      rcases Option.some_inj.mp hsel with rfl
      rcases sv_detect_orig s p o horig with hpo | ⟨r1, hr1, hr1o⟩
      · exact hpo
      · exfalso
        rw [hrrp, hr1] at hrt
        simp [truthyM] at hrt
        exact absurd hrt (ne_of_gt (hpos r1 hr1))
    · rw [if_neg hts] at hsel
      exact absurd hsel (by simp)

/-- C1, counterexample: the Dunnes Apify extractor defaults `original_price`
to the price itself (line 591), so a valid item with no promotion yields a
record whose `original_price` equals — not strictly exceeds — its price. -/
theorem C1_counterexample :
    dunnes_extract_price_data {} (some (mny 2 50)) none =
      some { price := mny 2 50, original_price := mny 2 50 } ∧
    ¬ mny 2 50 < mny 2 50 := by
  decide

/-- C1 (amended): `original_price ≥ price` holds on every record of the two
Apify extractors (with equality in the default/no-promotion and multi-buy
cases; the Dunnes actor-supplied promotion passthrough is excluded), and the
SuperValu record after price selection has `original_price` strictly above
the selected price whenever it is set (given positive captured rewards
prices and a positive extracted price). -/
theorem C1_amended :
    (∀ (s : DunnesScan) (pf ptc : Option Money) (rec : PriceRecord),
      truthyS s.actorPromoType = false →
      dunnes_extract_price_data s pf ptc = some rec →
      rec.price ≤ rec.original_price) ∧
    (∀ (item : TescoItem) (rec : PriceRecord),
      tesco_extract_price_data item = some rec → rec.price ≤ rec.original_price) ∧
    (∀ (s : SVScan) (p : Money),
      (∀ r, s.realRewardsPrice = some r → 0 < r) → 0 < p →
      ∀ pd2 o,
        (supervalu_select_price p (detect_supervalu_promotion_data s (some p))).2 = some pd2 →
        pd2.original_price = some o →
        (supervalu_select_price p (detect_supervalu_promotion_data s (some p))).1 < o) := by
  refine ⟨?_, ?_, ?_⟩
  · intro s pf ptc rec hactor h
    exact (dunnes_extract_char s pf ptc rec hactor h).2.1
  · intro item rec h
    rcases tesco_extract_char item rec h with ⟨rp, hrp, hc | ⟨t, hc⟩ | ⟨cc, h1, h2, hc⟩⟩
    · rw [hc]
    · rw [hc]
    · rw [hc]; exact le_of_lt h2
  · intro s p hpos hp pd2 o hsel horig
    exact supervalu_select_orig s p hpos hp pd2 o hsel horig

/-- C1, witness at the Tesco Clubcard scenario (price 2.00, regular 3.00). -/
theorem C1_witness :
    ∀ rec : PriceRecord,
      tesco_extract_price_data
        { priceField := some (mnyN 3),
          promotion := some { termsClubcard := true, priceCap := some (mny 2 0) } } = some rec →
      rec.price ≤ rec.original_price := by
  intro rec h
  exact C1_amended.2.1 _ rec h

/-- C4, counterexample: a Dunnes item whose text matches `25% off` yields a
record with the default `original_price = price` and
`promotion_discount_value = 25.0` (the percentage, lines 476-481), which is
not `round(original_price - price, 2) = 0`. -/
theorem C4_counterexample :
    dunnes_extract_price_data { pctCaps := [.num 25] } (some (mny 2 0)) none =
      some { price := mny 2 0, original_price := mny 2 0,
             promotion_type := some percentage_off,
             promotion_text := some (("25") ++ ("% Off")),
             promotion_discount_value := some (mnyN 25) } ∧
    ¬ mnyN 25 = round2 (mny 2 0 - mny 2 0) := by
  decide

/-- C4 (amended): the rounded-difference relation holds exactly on the paths
that compute the discount from the two prices: every Tesco membership record
has `promotion_discount_value = original_price - price` (an exact multiple
of 0.01, hence its own rounding), and every Dunnes `temporary_discount`
record discount equals `round(original_price - price, 2)`; records carrying
a percentage or fixed-amount discount keep the default
`original_price = price`, so the equation does not relate them. -/
theorem C4_amended :
    (∀ (item : TescoItem) (rec : PriceRecord),
      tesco_extract_price_data item = some rec →
      rec.promotion_type = some membership_price →
      rec.promotion_discount_value = some (rec.original_price - rec.price)) ∧
    (∀ (s : DunnesScan) (pf ptc : Option Money) (rec : PriceRecord) (dv : Money),
      truthyS s.actorPromoType = false →
      dunnes_extract_price_data s pf ptc = some rec →
      rec.promotion_type = some temporary_discount →
      rec.promotion_discount_value = some dv →
      dv = round2 (rec.original_price - rec.price)) := by
  constructor
  · intro item rec h hmem
    rcases tesco_extract_char item rec h with ⟨rp, hrp, hc | ⟨t, hc⟩ | ⟨cc, h1, h2, hc⟩⟩
    · rw [hc] at hmem
      exact absurd hmem (by simp)
    · rw [hc] at hmem
      exact absurd (Option.some_inj.mp hmem) (by decide)
    · rw [hc]
  · intro s pf ptc rec dv hactor h htemp hdv
    exact (dunnes_extract_char s pf ptc rec hactor h).2.2 htemp dv hdv

/-- C4, witness at the Tesco Clubcard scenario. -/
theorem C4_witness :
    ∀ rec : PriceRecord,
      tesco_extract_price_data
        { priceField := some (mnyN 3),
          promotion := some { termsClubcard := true, priceCap := some (mny 2 0) } } = some rec →
      rec.promotion_type = some membership_price →
      rec.promotion_discount_value = some (rec.original_price - rec.price) := by
  intro rec h hmem
  exact C4_amended.1 _ rec h hmem

/-- C6, counterexample: a SuperValu page whose Real Rewards member price
(2.00) is not lower than the extracted price (1.50) keeps the extracted
price as primary while the record still carries the `membership_price` kind
and the member price in `real_rewards_price` — the member price is not used
as the primary price (lines 2068-2071). -/
theorem C6_counterexample :
    (supervalu_select_price (mny 1 50)
        (detect_supervalu_promotion_data
          { realRewardsPrice := some (mny 2 0) } (some (mny 1 50)))).1 = mny 1 50 ∧
    (supervalu_select_price (mny 1 50)
        (detect_supervalu_promotion_data
          { realRewardsPrice := some (mny 2 0) } (some (mny 1 50)))).2 =
      some { promotion_type := some membership_price,
             promotion_text := some (("Only €") ++ ("2.00") ++ (" Real Rewards Price")),
             real_rewards_price := some (mny 2 0) } ∧
    ¬ (mny 1 50 : Money) = mny 2 0 := by
  decide

/-- C6 (amended): the Tesco Apify extractor always uses the Clubcard price
as the primary price and the regular price as `original_price` for
membership records; the SuperValu selection does so only when the member
price is strictly lower than the normal/extracted price, in which case the
returned pair is exactly (member price, dict with `original_price` set to
the normal price). -/
theorem C6_amended :
    (∀ (item : TescoItem) (rec : PriceRecord),
      tesco_extract_price_data item = some rec →
      rec.promotion_type = some membership_price →
      rec.price < rec.original_price ∧
        rec.promotion_discount_value = some (rec.original_price - rec.price)) ∧
    (∀ (p : Money) (pd : PromoData) (r : Money),
      pd.real_rewards_price = some r → r ≠ 0 → r < pyOr pd.original_price p →
      supervalu_select_price p pd =
        (r, some { pd with original_price := some (pyOr pd.original_price p) })) := by
  constructor
  · intro item rec h hmem
    rcases tesco_extract_char item rec h with ⟨rp, hrp, hc | ⟨t, hc⟩ | ⟨cc, h1, h2, hc⟩⟩
    · rw [hc] at hmem
      exact absurd hmem (by simp)
    · rw [hc] at hmem
      exact absurd (Option.some_inj.mp hmem) (by decide)
    · rw [hc]
      exact ⟨h2, rfl⟩
  · intro p pd r hr hrne hlt
    unfold supervalu_select_price
    have ht : truthyM pd.real_rewards_price = true := by
      rw [hr]
      simp [truthyM, hrne]
    rw [if_pos ht]
    dsimp only
    have hgetD : pd.real_rewards_price.getD 0 = r := by rw [hr]; rfl
    rw [hgetD]
    rw [if_pos hlt]

/-- C6, witness at the spec's scenario: Clubcard price 2.00 with regular
price 3.00 gives a membership record with price below original. -/
theorem C6_witness :
    ∀ rec : PriceRecord,
      tesco_extract_price_data
        { priceField := some (mnyN 3),
          promotion := some { termsClubcard := true, priceCap := some (mny 2 0),
                              description := "Clubcard Price €2.00" } } = some rec →
      rec.promotion_type = some membership_price →
      rec.price < rec.original_price ∧
        rec.promotion_discount_value = some (rec.original_price - rec.price) := by
  intro rec h hmem
  exact C6_amended.1 _ rec h hmem

/-! helper lemmas for the Tesco price-summary fold -/

/-- the `regular` field's first-write-wins combine -/
def okeep : Option Money → Money → Option Money
  | none, v => some v
  | some w, _ => some w

/-- positivity of an optional stored value -/
def PosOpt (o : Option Money) : Prop := ∀ w, o = some w → 0 < w

lemma classifyStep_bucket (r : TescoSummary) (p : TescoPriceFlags) :
    classifyStep r p =
      match classifyBucket p with
      | .perUnitB => { r with per_unit := updPerUnit r.per_unit p.value }
      | .multiBuyB => r
      | .clubcardB => { r with clubcard := updClub r.clubcard p.value }
      | .regularB => { r with regular := updReg r.regular p.value } := by
  unfold classifyStep classifyBucket
  split_ifs <;> rfl

lemma bucketVals_cons (b : TescoBucket) (p : TescoPriceFlags) (ps : List TescoPriceFlags) :
    bucketVals b (p :: ps) =
      if classifyBucket p = b then p.value :: bucketVals b ps else bucketVals b ps := by
  by_cases h : classifyBucket p = b
  · simp [bucketVals, List.filter_cons, h]
  · simp [bucketVals, List.filter_cons, h]

lemma updClub_omin (cur : Option Money) (v : Money) (hc : PosOpt cur) :
    updClub cur v = omin cur v := by
  cases cur with
  | none => rfl
  | some w =>
    have hw : 0 < w := hc w rfl
    unfold updClub omin
    dsimp only
    by_cases h : v < w
    · rw [if_pos (Or.inr h)]
      rw [min_eq_right (le_of_lt h)]
    · rw [if_neg ?_, min_eq_left (not_lt.mp h)]
      intro hcon
      rcases hcon with h0 | hlt
      · exact absurd h0 (ne_of_gt hw)
      · exact h hlt

lemma updPerUnit_omax (cur : Option Money) (v : Money) (hc : PosOpt cur) :
    updPerUnit cur v = omax cur v := by
  cases cur with
  | none => rfl
  | some w =>
    have hw : 0 < w := hc w rfl
    unfold updPerUnit omax
    dsimp only
    by_cases h : w < v
    · rw [if_pos (Or.inr h)]
      rw [max_eq_right (le_of_lt h)]
    · rw [if_neg ?_, max_eq_left (not_lt.mp h)]
      intro hcon
      rcases hcon with h0 | hlt
      · exact absurd h0 (ne_of_gt hw)
      · exact h hlt

lemma updReg_okeep (cur : Option Money) (v : Money) (hc : PosOpt cur) :
    updReg cur v = okeep cur v := by
  cases cur with
  | none => rfl
  | some w =>
    have hw : 0 < w := hc w rfl
    unfold updReg okeep
    dsimp only
    rw [if_neg (ne_of_gt hw)]

lemma PosOpt_omin (cur : Option Money) (v : Money) (hv : 0 < v) (hc : PosOpt cur) :
    PosOpt (omin cur v) := by
  cases cur with
  | none =>
    intro w hw
    rcases Option.some_inj.mp hw with rfl
    exact hv
  | some u =>
    intro w hw
    rcases Option.some_inj.mp hw with rfl
    exact lt_min (hc u rfl) hv

lemma PosOpt_omax (cur : Option Money) (v : Money) (hv : 0 < v) (hc : PosOpt cur) :
    PosOpt (omax cur v) := by
  cases cur with
  | none =>
    intro w hw
    rcases Option.some_inj.mp hw with rfl
    exact hv
  | some u =>
    intro w hw
    rcases Option.some_inj.mp hw with rfl
    exact lt_of_lt_of_le hv (le_max_right u v)

lemma PosOpt_okeep (cur : Option Money) (v : Money) (hv : 0 < v) (hc : PosOpt cur) :
    PosOpt (okeep cur v) := by
  cases cur with
  | none =>
    intro w hw
    rcases Option.some_inj.mp hw with rfl
    exact hv
  | some u =>
    intro w hw
    rcases Option.some_inj.mp hw with rfl
    exact hc u rfl

lemma foldl_okeep_some : ∀ (l : List Money) (w : Money), l.foldl okeep (some w) = some w := by
  intro l
  induction l with
  | nil => intro w; rfl
  | cons v rest ih => intro w; exact ih w

lemma foldl_okeep_none : ∀ l : List Money, l.foldl okeep none = l.head? := by
  intro l
  cases l with
  | nil => rfl
  | cons v rest => exact foldl_okeep_some rest v

lemma tesco_fold_spec : ∀ (ps : List TescoPriceFlags) (acc : TescoSummary),
    (∀ p ∈ ps, 0 < p.value) →
    PosOpt acc.regular → PosOpt acc.clubcard → PosOpt acc.per_unit →
    (ps.foldl classifyStep acc).clubcard = (bucketVals .clubcardB ps).foldl omin acc.clubcard ∧
    (ps.foldl classifyStep acc).regular = (bucketVals .regularB ps).foldl okeep acc.regular ∧
    (ps.foldl classifyStep acc).per_unit = (bucketVals .perUnitB ps).foldl omax acc.per_unit := by
  intro ps
  induction ps with
  | nil =>
    intro acc hps h1 h2 h3
    exact ⟨rfl, rfl, rfl⟩
  | cons p ps ih =>
    intro acc hps h1 h2 h3
    have hv : 0 < p.value := hps p (List.mem_cons_self ..)
    have hps2 : ∀ q ∈ ps, 0 < q.value := fun q hq => hps q (List.mem_cons_of_mem _ hq)
    rw [List.foldl_cons, classifyStep_bucket]
    cases hb : classifyBucket p with
    | perUnitB =>
      dsimp only
      obtain ⟨ic, ir, iu⟩ :=
        ih { acc with per_unit := updPerUnit acc.per_unit p.value } hps2 h1 h2
          (by rw [show updPerUnit acc.per_unit p.value = omax acc.per_unit p.value from
                updPerUnit_omax acc.per_unit p.value h3]
              exact PosOpt_omax acc.per_unit p.value hv h3)
      refine ⟨?_, ?_, ?_⟩
      · rw [bucketVals_cons, if_neg (by rw [hb]; decide)]
        exact ic
      · rw [bucketVals_cons, if_neg (by rw [hb]; decide)]
        exact ir
      · rw [bucketVals_cons, if_pos (by rw [hb]), List.foldl_cons,
          ← updPerUnit_omax acc.per_unit p.value h3]
        exact iu
    | multiBuyB =>
      dsimp only
      obtain ⟨ic, ir, iu⟩ := ih acc hps2 h1 h2 h3
      refine ⟨?_, ?_, ?_⟩
      · rw [bucketVals_cons, if_neg (by rw [hb]; decide)]
        exact ic
      · rw [bucketVals_cons, if_neg (by rw [hb]; decide)]
        exact ir
      · rw [bucketVals_cons, if_neg (by rw [hb]; decide)]
        exact iu
    | clubcardB =>
      dsimp only
      obtain ⟨ic, ir, iu⟩ :=
        ih { acc with clubcard := updClub acc.clubcard p.value } hps2 h1
          (by rw [show updClub acc.clubcard p.value = omin acc.clubcard p.value from
                updClub_omin acc.clubcard p.value h2]
              exact PosOpt_omin acc.clubcard p.value hv h2) h3
      refine ⟨?_, ?_, ?_⟩
      · rw [bucketVals_cons, if_pos (by rw [hb]), List.foldl_cons,
          ← updClub_omin acc.clubcard p.value h2]
        exact ic
      · rw [bucketVals_cons, if_neg (by rw [hb]; decide)]
        exact ir
      · rw [bucketVals_cons, if_neg (by rw [hb]; decide)]
        exact iu
    | regularB =>
      dsimp only
      obtain ⟨ic, ir, iu⟩ :=
        ih { acc with regular := updReg acc.regular p.value } hps2
          (by rw [show updReg acc.regular p.value = okeep acc.regular p.value from
                updReg_okeep acc.regular p.value h1]
              exact PosOpt_okeep acc.regular p.value hv h1) h2 h3
      refine ⟨?_, ?_, ?_⟩
      · rw [bucketVals_cons, if_neg (by rw [hb]; decide)]
        exact ic
      · rw [bucketVals_cons, if_pos (by rw [hb]), List.foldl_cons,
          ← updReg_okeep acc.regular p.value h1]
        exact ir
      · rw [bucketVals_cons, if_neg (by rw [hb]; decide)]
        exact iu

/-- C10, counterexample: two prices both classifying as Clubcard, 0.00 then
2.00.  Python's `not result['clubcard']` treats the stored `0.0` as unset,
so the summary ends with 2.00 instead of the minimum 0.00 (the same
falsiness breaks first-write-wins for `regular`). -/
theorem C10_counterexample :
    classifyBucket { value := 0, textClubcard := true } = TescoBucket.clubcardB ∧
    classifyBucket { value := mnyN 2, textClubcard := true } = TescoBucket.clubcardB ∧
    (extract_tesco_all_prices
        [{ value := 0, textClubcard := true },
         { value := mnyN 2, textClubcard := true }]).clubcard = some (mnyN 2) ∧
    ¬ (mnyN 2 : Money) ≤ 0 := by
  decide

/-- C10 (amended): for inputs whose extracted values are all positive (a
stored `0.0` is treated as unset by the Python truthiness guards), the
summary keeps the minimum of the Clubcard-classified values, the first
regular-classified value, and the maximum of the per-unit-classified
values. -/
theorem C10_amended (ps : List TescoPriceFlags) (hpos : ∀ p ∈ ps, 0 < p.value) :
    (extract_tesco_all_prices ps).clubcard = listMin (bucketVals .clubcardB ps) ∧
    (extract_tesco_all_prices ps).regular = (bucketVals .regularB ps).head? ∧
    (extract_tesco_all_prices ps).per_unit = listMax (bucketVals .perUnitB ps) := by
  obtain ⟨ic, ir, iu⟩ := tesco_fold_spec ps {} hpos
    (fun w hw => Option.noConfusion hw) (fun w hw => Option.noConfusion hw)
    (fun w hw => Option.noConfusion hw)
  refine ⟨ic, ?_, iu⟩
  have ir2 : (extract_tesco_all_prices ps).regular =
      List.foldl okeep none (bucketVals TescoBucket.regularB ps) := ir
  rw [ir2]
  exact foldl_okeep_none (bucketVals .regularB ps)

/-- C10, witness: Clubcard values 3.00 then 2.00 keep the minimum 2.00. -/
theorem C10_witness :
    (extract_tesco_all_prices
        [{ value := mnyN 3, textClubcard := true },
         { value := mnyN 2, textClubcard := true }]).clubcard =
      listMin (bucketVals .clubcardB
        [{ value := mnyN 3, textClubcard := true },
         { value := mnyN 2, textClubcard := true }]) :=
  (C10_amended
    [{ value := mnyN 3, textClubcard := true },
     { value := mnyN 2, textClubcard := true }] (by decide)).1

end MasterMarket
